import Mathlib

/-!
A shallow embedding of `cmd/main.go`.

The program is a one-request-per-connection HTTP-like server.  `handle` reads
one line from the connection, `getPath` extracts the middle token, a `switch`
picks a handler, and `writeResponse` frames the status line, the header lines
and the body.

Go strings and byte slices are byte sequences; they are embedded as
`List UInt8`.  The connection, the file system and the logger are embedded as
one explicit state, `World`, that every effectful function threads through.
-/

namespace BgoHttp

/-- Go `string` and `[]byte`: a finite sequence of bytes. -/
abbrev Bytes := List UInt8

/-- The bytes of a string literal of the source.  Every literal of `main.go` is
ASCII, so each character is one byte, its code. -/
def bytes (s : String) : Bytes := s.toList.map (fun c => UInt8.ofNat c.toNat)

/-- The constant `CRLF = "\r\n"` of the source. -/
def CRLF : Bytes := bytes "\r\n"

/-- The space byte, the separator `" "` that `getPath` splits on. -/
def SP : UInt8 := 32

/-- The line feed byte, `const delim = '\n'` in `handle`. -/
def delim : UInt8 := 10

/-- Go `error` values that the program can see.  `EOF` is the sentinel `io.EOF`
(compared by identity in `handle`), `New msg` is what `errors.New(msg)` builds,
and `sys msg` stands for any error of the operating system or the network
stack. -/
inductive GoError where
  | EOF : GoError
  | New (msg : Bytes) : GoError
  | sys (msg : Bytes) : GoError
deriving DecidableEq, Repr

/-- The method `Error()` of a Go error: its message. -/
def GoError.Error : GoError → Bytes
  | .EOF => bytes "EOF"
  | .New msg => msg
  | .sys msg => msg

/-- `strings.Split(s, sep)` for a separator of one byte: the substrings between
the occurrences of `sep`, empty ones included.  A string without `sep` gives the
one-element list `[s]`; the result has one more element than `s` has
separators. -/
def strings_Split (s : Bytes) (sep : UInt8) : List Bytes :=
  match s with
  | [] => [[]]
  | c :: cs =>
    if c = sep then [] :: strings_Split cs sep
    else
      match strings_Split cs sep with
      | [] => [[c]]
      | p :: ps => (c :: p) :: ps

/-- `getPath` of the source: split the line on spaces, require exactly three
parts, return the second.  The Go result pair `(string, error)` is the pair
`(path, err)` with `none` for `nil`. -/
def getPath (line : Bytes) : Bytes × Option GoError :=
  let parts := strings_Split line SP
  if parts.length ≠ 3 then
    ([], some (GoError.New (bytes "invalid request line " ++ line)))
  else
    (parts.getD 1 [], none)

/-- `fmt.Sprintf("%d", n)` for a Go `int`: the decimal digits, with a leading
minus sign for a negative number. -/
def fmt_d (n : Int) : Bytes :=
  match n with
  | Int.ofNat m => (Nat.toDigits 10 m).map (fun c => UInt8.ofNat c.toNat)
  | Int.negSucc m => 45 :: (Nat.toDigits 10 (m + 1)).map (fun c => UInt8.ofNat c.toNat)

/-- The scan behind `bytes.ReplaceAll(s, old, new)` for a non-empty `old`: walk
`s` from the left; where `old` starts, emit `new` and skip the rest of that
occurrence (`skip` counts the bytes still to skip), otherwise copy the byte. -/
def replaceFrom (old new : Bytes) : Nat → Bytes → Bytes
  | _, [] => []
  | skip + 1, _ :: cs => replaceFrom old new skip cs
  | 0, c :: cs =>
    if old.isPrefixOf (c :: cs) then new ++ replaceFrom old new (old.length - 1) cs
    else c :: replaceFrom old new 0 cs

/-- `bytes.ReplaceAll(s, old, new)` for a non-empty `old` (the only use in the
source): every non-overlapping occurrence of `old`, leftmost first, is replaced
by `new`. -/
def bytes_ReplaceAll (s old new : Bytes) : Bytes := replaceFrom old new 0 s

/-- The state the program acts on: one accepted connection, the file system
and the log.

* `input` is what the peer sends before its stream ends and `readEnd` the error
  `Read` reports after that (`io.EOF` for an orderly close);
* `written` is what has been delivered to the peer; `budget` is how many more
  bytes the connection accepts (`none`: no limit) before a write fails with
  `writeErr`;
* `closed` counts the calls of `conn.Close()`, `closeErr` is what `Close`
  returns;
* `files` is the file system as `ioutil.ReadFile` sees it, `fsReads` the names
  it has been asked for;
* `log` holds the messages given to the package `log`, without time stamps. -/
structure World where
  input : Bytes
  readEnd : GoError
  written : Bytes
  budget : Option Nat
  writeErr : GoError
  closed : Nat
  closeErr : Option GoError
  files : Bytes → Except GoError Bytes
  fsReads : List Bytes
  log : List Bytes

/-- `log.Printf` and `log.Println`: append one message to the log. -/
def logMsg (w : World) (msg : Bytes) : World :=
  { w with log := w.log ++ [msg] }

/-- The first line of a stream: the bytes up to and including the first `d`, or
`none` when the stream has no `d`. -/
def firstLine (d : UInt8) : Bytes → Option Bytes
  | [] => none
  | c :: cs =>
    if c = d then some [c]
    else
      match firstLine d cs with
      | some l => some (c :: l)
      | none => none

/-- `bufio.NewReader(conn).ReadString(d)`: the data up to and including the
first `d` with a `nil` error; when the stream ends before a `d`, all the data
read and the error that ended it. -/
def bufio_ReadString (w : World) (d : UInt8) : Bytes × Option GoError :=
  match firstLine d w.input with
  | some line => (line, none)
  | none => (w.input, some w.readEnd)

/-- `conn.Write(p)`: the connection takes the bytes it still accepts; a write
that it cannot take whole delivers what fits and fails. -/
def connWrite (w : World) (p : Bytes) : World × Option GoError :=
  match w.budget with
  | none => ({ w with written := w.written ++ p }, none)
  | some k =>
    if p.length ≤ k then
      ({ w with written := w.written ++ p, budget := some (k - p.length) }, none)
    else
      ({ w with written := w.written ++ p.take k, budget := some 0 }, some w.writeErr)

/-- `conn.Close()` in the deferred function of `handle`: the connection is
closed once more, and an error of `Close` is logged. -/
def connClose (w : World) : World :=
  let w1 := { w with closed := w.closed + 1 }
  match w1.closeErr with
  | some cerr => logMsg w1 (cerr.Error ++ bytes "\n")
  | none => w1

/-- `ioutil.ReadFile(name)`: the content of the file or the error of the file
system; the request is recorded in `fsReads`. -/
def ioutil_ReadFile (w : World) (name : Bytes) : World × Bytes × Option GoError :=
  let w1 := { w with fsReads := w.fsReads ++ [name] }
  match w.files name with
  | Except.ok data => (w1, data, none)
  | Except.error e => (w1, [], some e)

/-- A `bufio.Writer` on the connection: the bytes written and not yet flushed.
The buffer of the library has a fixed size and is flushed early when it fills
up; on a connection that takes a fixed number of bytes this changes neither the
bytes delivered nor the error `writeResponse` returns, so the buffer is kept
whole until `Flush`. -/
structure Writer where
  buf : Bytes

/-- `writer.WriteString(s)`. -/
def Writer.WriteString (wr : Writer) (s : Bytes) : Writer × Option GoError :=
  ({ buf := wr.buf ++ s }, none)

/-- `writer.Write(p)`. -/
def Writer.Write (wr : Writer) (p : Bytes) : Writer × Option GoError :=
  ({ buf := wr.buf ++ p }, none)

/-- `writer.Flush()`: deliver the buffered bytes to the connection. -/
def Writer.Flush (wr : Writer) (w : World) : World × Option GoError :=
  if wr.buf = [] then (w, none) else connWrite w wr.buf

/-- The loop `for i, s := range strings` of `writeResponse`, from index `i` on;
`n` is `len(strings)`.  The last header line gets a second `CRLF`. -/
def writeHeaders (n : Nat) : Nat → List Bytes → Writer → Writer × Option GoError
  | _, [], wr => (wr, none)
  | i, s :: rest, wr =>
    let s1 := if n = i + 1 then s ++ CRLF else s
    match wr.WriteString (s1 ++ CRLF) with
    | (wr1, some err) => (wr1, some err)
    | (wr1, none) => writeHeaders n (i + 1) rest wr1

/-- `writeResponse` of the source.  `file` is `none` for a `nil` slice. -/
def writeResponse (w : World) (status : Int) (strings : List Bytes)
    (file : Option Bytes) : World × Option GoError :=
  let writer : Writer := { buf := [] }
  match writer.WriteString (bytes "HTTP/1.1 " ++ fmt_d status ++ CRLF) with
  | (_, some err) => (w, some err)
  | (writer1, none) =>
    match writeHeaders strings.length 0 strings writer1 with
    | (_, some err) => (w, some err)
    | (writer2, none) =>
      let r :=
        match file with
        | some f => writer2.Write f
        | none => (writer2, none)
      match r with
      | (_, some err) => (w, some err)
      | (writer3, none) =>
        match writer3.Flush w with
        | (w1, some err) => (w1, some err)
        | (w1, none) => (w1, none)

/-- `write404` of the source. -/
def write404 (w : World) : World × Option GoError :=
  writeResponse w 404 [bytes "Connection: close"] none

/-- `includeIndexTemplate` of the source: read the template and substitute the
two placeholders, one after the other. -/
def includeIndexTemplate (w : World) : World × Bytes × Option GoError :=
  let username := bytes "Michael"
  let balance := bytes "1 000.50"
  match ioutil_ReadFile w (bytes "web/template/index.html") with
  | (w1, _, some err) => (w1, [], some err)
  | (w1, file, none) =>
    let file1 := bytes_ReplaceAll file (bytes "\x7busername\x7d") username
    let file2 := bytes_ReplaceAll file1 (bytes "\x7bbalance\x7d") balance
    (w1, file2, none)

/-- `writeIndex` of the source. -/
def writeIndex (w : World) : World × Option GoError :=
  match includeIndexTemplate w with
  | (w1, _, some err) => (w1, some err)
  | (w1, file, none) =>
    writeResponse w1 200
      [bytes "Connection: close",
       bytes "Content-Length: " ++ fmt_d (Int.ofNat file.length),
       bytes "Content-Type: text/html; charset=utf-8"]
      (some file)

/-- `writeTransactionsCsv` of the source. -/
def writeTransactionsCsv (w : World) : World × Option GoError :=
  match ioutil_ReadFile w (bytes "web/shared/transactions.csv") with
  | (w1, _, some err) => (w1, some err)
  | (w1, file, none) =>
    writeResponse w1 200
      [bytes "Content-Type: text/csv",
       bytes "Content-Length: " ++ fmt_d (Int.ofNat file.length),
       bytes "Connection: close"]
      (some file)

/-- `writeTransactionsJson` of the source. -/
def writeTransactionsJson (w : World) : World × Option GoError :=
  match ioutil_ReadFile w (bytes "web/shared/transactions.json") with
  | (w1, _, some err) => (w1, some err)
  | (w1, file, none) =>
    writeResponse w1 200
      [bytes "application/json; charset=utf-8",
       bytes "Content-Length: " ++ fmt_d (Int.ofNat file.length),
       bytes "Connection: close"]
      (some file)

/-- `writeTransactionsXml` of the source. -/
def writeTransactionsXml (w : World) : World × Option GoError :=
  match ioutil_ReadFile w (bytes "web/shared/transactions.xml") with
  | (w1, _, some err) => (w1, some err)
  | (w1, file, none) =>
    writeResponse w1 200
      [bytes "application/xml",
       bytes "Content-Length: " ++ fmt_d (Int.ofNat file.length),
       bytes "Connection: close"]
      (some file)

/-- The `switch path` of `handle`: the handler the path selects. -/
def dispatch (path : Bytes) (w : World) : World × Option GoError :=
  if path = bytes "/" then writeIndex w
  else if path = bytes "/transactions.csv" then writeTransactionsCsv w
  else if path = bytes "/transactions.json" then writeTransactionsJson w
  else if path = bytes "/transactions.xml" then writeTransactionsXml w
  else write404 w

/-- The body of `handle`, before the deferred `conn.Close()` runs. -/
def handleBody (w : World) : World × Option GoError :=
  match bufio_ReadString w delim with
  | (line, some err) =>
    if err ≠ GoError.EOF then (w, some err)
    else (logMsg w (bytes "received: " ++ line ++ bytes "\n"), some err)
  | (line, none) =>
    let w1 := logMsg w (bytes "received: " ++ line ++ bytes "\n")
    match getPath line with
    | (_, some err) => (w1, some err)
    | (path, none) =>
      match dispatch path w1 with
      | (w2, some err) => (w2, some err)
      | (w2, none) => (w2, none)

/-- `handle` of the source: the body, then the deferred close of the
connection on every way out. -/
def handle (w : World) : World × Option GoError :=
  match handleBody w with
  | (w1, err) => (connClose w1, err)

/-! ## Definitions that follow the words of the specification -/

/-- The header block as the specification words it: each header line followed
by a line terminator, in the order given. -/
def headerBlock : List Bytes → Bytes
  | [] => []
  | h :: rest => h ++ CRLF ++ headerBlock rest

/-- The value of one decimal digit, `none` for any other byte. -/
def digitValue (c : UInt8) : Option Nat :=
  if 48 ≤ c.toNat ∧ c.toNat ≤ 57 then some (c.toNat - 48) else none

/-- Read decimal digits from the left, starting from the value `acc`. -/
def decimalValueFrom (acc : Nat) : Bytes → Option Nat
  | [] => some acc
  | c :: cs =>
    match digitValue c with
    | some d => decimalValueFrom (acc * 10 + d) cs
    | none => none

/-- The decimal value of a header value such as the one of `Content-Length`:
the number that a non-empty string of digits denotes. -/
def decimalValue (s : Bytes) : Option Nat :=
  if s = [] then none else decimalValueFrom 0 s

/-- One pass over a template that replaces both placeholders where they stand;
`skip` counts the bytes of a placeholder still to pass over. -/
def substituteFrom : Nat → Bytes → Bytes
  | _, [] => []
  | skip + 1, _ :: cs => substituteFrom skip cs
  | 0, c :: cs =>
    if (bytes "\x7busername\x7d").isPrefixOf (c :: cs) then
      bytes "Michael" ++ substituteFrom ((bytes "\x7busername\x7d").length - 1) cs
    else if (bytes "\x7bbalance\x7d").isPrefixOf (c :: cs) then
      bytes "1 000.50" ++ substituteFrom ((bytes "\x7bbalance\x7d").length - 1) cs
    else c :: substituteFrom 0 cs

/-- The index body as the specification words it: the template with every
occurrence of `{username}` replaced by `Michael` and every occurrence of
`{balance}` replaced by `1 000.50`. -/
def substitutePlaceholders (t : Bytes) : Bytes := substituteFrom 0 t

/-- The connection takes every write: no limit on the bytes it accepts. -/
def World.writesSucceed (w : World) : Prop := w.budget = none

/-- The resource file behind a recognized path, `none` for every other path. -/
def resourceFor (path : Bytes) : Option Bytes :=
  if path = bytes "/" then some (bytes "web/template/index.html")
  else if path = bytes "/transactions.csv" then some (bytes "web/shared/transactions.csv")
  else if path = bytes "/transactions.json" then some (bytes "web/shared/transactions.json")
  else if path = bytes "/transactions.xml" then some (bytes "web/shared/transactions.xml")
  else none

/-- The response of the wire protocol for a recognized path whose resource has
the content `c`: status 200, the three header lines of the route in their order,
a blank line and the body. -/
def responseFor (path c : Bytes) : Bytes :=
  if path = bytes "/" then
    bytes "HTTP/1.1 200\r\nConnection: close\r\nContent-Length: "
      ++ fmt_d (Int.ofNat (substitutePlaceholders c).length)
      ++ bytes "\r\nContent-Type: text/html; charset=utf-8\r\n\r\n"
      ++ substitutePlaceholders c
  else if path = bytes "/transactions.csv" then
    bytes "HTTP/1.1 200\r\nContent-Type: text/csv\r\nContent-Length: "
      ++ fmt_d (Int.ofNat c.length) ++ bytes "\r\nConnection: close\r\n\r\n" ++ c
  else if path = bytes "/transactions.json" then
    bytes "HTTP/1.1 200\r\napplication/json; charset=utf-8\r\nContent-Length: "
      ++ fmt_d (Int.ofNat c.length) ++ bytes "\r\nConnection: close\r\n\r\n" ++ c
  else
    bytes "HTTP/1.1 200\r\napplication/xml\r\nContent-Length: "
      ++ fmt_d (Int.ofNat c.length) ++ bytes "\r\nConnection: close\r\n\r\n" ++ c

/-- The response of the wire protocol for any other path. -/
def notFoundResponse : Bytes := bytes "HTTP/1.1 404\r\nConnection: close\r\n\r\n"

/-- What answering a request for `path` amounts to: for an unrecognized path one
write of the 404 response; for a recognized one a read of its resource, then
either the error of the read with nothing written, or one write of the
response. -/
def answer (path : Bytes) (w : World) : World × Option GoError :=
  match resourceFor path with
  | none => connWrite w notFoundResponse
  | some name =>
    match w.files name with
    | Except.ok c => connWrite { w with fsReads := w.fsReads ++ [name] } (responseFor path c)
    | Except.error e => ({ w with fsReads := w.fsReads ++ [name] }, some e)

/-- Two worlds with the same resource state and the same connection as far as
writing goes: the same files, the same bytes written so far and the same
readiness to take more.  They may differ in what the peer sends, in the log and
in the counts of reads and closes. -/
def World.sameService (w1 w2 : World) : Prop :=
  w1.files = w2.files ∧ w1.written = w2.written ∧ w1.budget = w2.budget ∧
    w1.writeErr = w2.writeErr

/-- Two worlds with the same input stream and the same service. -/
def World.sameExchange (w1 w2 : World) : Prop :=
  w1.input = w2.input ∧ w1.readEnd = w2.readEnd ∧ w1.sameService w2

/-! ## Worlds for worked examples -/

/-- A file system without any file: every read fails. -/
def noFiles : Bytes → Except GoError Bytes :=
  fun _ => Except.error (GoError.sys (bytes "no such file or directory"))

/-- A file system that holds the one file `name` with content `data`. -/
def oneFile (name data : Bytes) : Bytes → Except GoError Bytes :=
  fun n => if n = name then Except.ok data else noFiles n

/-- A file system with the four resources of the program, each with a short
content. -/
def sampleFiles : Bytes → Except GoError Bytes :=
  fun n =>
    if n = bytes "web/template/index.html" then
      Except.ok (bytes "<p>\x7busername\x7d: \x7bbalance\x7d</p>")
    else if n = bytes "web/shared/transactions.csv" then Except.ok (bytes "a,b\n1,2\n")
    else if n = bytes "web/shared/transactions.json" then Except.ok (bytes "[1,2]")
    else if n = bytes "web/shared/transactions.xml" then Except.ok (bytes "<t/>")
    else noFiles n

/-- A fresh connection on which the peer sends `input` and then closes its
side; nothing written, nothing closed, no limit on writes. -/
def freshWorld (input : Bytes) (files : Bytes → Except GoError Bytes) : World :=
  { input := input
    readEnd := GoError.EOF
    written := []
    budget := none
    writeErr := GoError.sys (bytes "broken pipe")
    closed := 0
    closeErr := none
    files := files
    fsReads := []
    log := [] }

/-! ## Lemmas on `strings.Split` -/

theorem strings_Split_ne_nil (s : Bytes) (sep : UInt8) : strings_Split s sep ≠ [] := by
  cases s with
  | nil => simp [strings_Split]
  | cons c cs =>
    unfold strings_Split
    split
    · simp
    · split <;> simp

theorem strings_Split_no_sep (s : Bytes) (sep : UInt8) (h : sep ∉ s) :
    strings_Split s sep = [s] := by
  induction s with
  | nil => simp [strings_Split]
  | cons c cs ih =>
    have hc : c ≠ sep := fun e => h (by simp [e])
    have hcs : sep ∉ cs := fun e => h (by simp [e])
    simp [strings_Split, hc, ih hcs]

theorem strings_Split_append_sep (a rest : Bytes) (sep : UInt8) (h : sep ∉ a) :
    strings_Split (a ++ sep :: rest) sep = a :: strings_Split rest sep := by
  induction a with
  | nil => simp [strings_Split]
  | cons c cs ih =>
    have hc : c ≠ sep := fun e => h (by simp [e])
    have hcs : sep ∉ cs := fun e => h (by simp [e])
    simp [strings_Split, hc, ih hcs]

theorem strings_Split_length (s : Bytes) (sep : UInt8) :
    (strings_Split s sep).length = s.count sep + 1 := by
  induction s with
  | nil => simp [strings_Split]
  | cons c cs ih =>
    unfold strings_Split
    by_cases hc : c = sep
    · subst hc
      simp [ih]
    · have hne : (c == sep) = false := by simpa using hc
      simp only [hc, if_false]
      rw [List.count_cons, hne]
      cases hs : strings_Split cs sep with
      | nil => exact absurd hs (strings_Split_ne_nil cs sep)
      | cons p ps =>
        rw [hs] at ih
        simpa using ih

theorem strings_Split_three (m p v : Bytes) (hm : SP ∉ m) (hp : SP ∉ p) (hv : SP ∉ v) :
    strings_Split (m ++ SP :: (p ++ SP :: v)) SP = [m, p, v] := by
  rw [strings_Split_append_sep m _ SP hm, strings_Split_append_sep p _ SP hp,
    strings_Split_no_sep v SP hv]

theorem getPath_of_three (m p v : Bytes) (hm : SP ∉ m) (hp : SP ∉ p) (hv : SP ∉ v) :
    getPath (m ++ SP :: (p ++ SP :: v)) = (p, none) := by
  simp [getPath, strings_Split_three m p v hm hp hv]

/-! ## Lemmas on decimal formatting -/

theorem toDigitsCore_append (b : Nat) :
    ∀ (fuel n : Nat) (ds : List Char),
      Nat.toDigitsCore b fuel n ds = Nat.toDigitsCore b fuel n [] ++ ds := by
  intro fuel
  induction fuel with
  | zero => intro n ds; simp [Nat.toDigitsCore]
  | succ f ih =>
    intro n ds
    simp only [Nat.toDigitsCore]
    split
    · simp
    · rw [ih (n / b) (Nat.digitChar (n % b) :: ds), ih (n / b) [Nat.digitChar (n % b)]]
      simp

theorem toDigitsCore_fuel (b : Nat) (hb : 2 ≤ b) :
    ∀ (f1 f2 n : Nat) (ds : List Char), n < f1 → n < f2 →
      Nat.toDigitsCore b f1 n ds = Nat.toDigitsCore b f2 n ds := by
  intro f1
  induction f1 with
  | zero => intro f2 n ds h; omega
  | succ f ih =>
    intro f2 n ds h1 h2
    cases f2 with
    | zero => omega
    | succ g =>
      simp only [Nat.toDigitsCore]
      split
      · rfl
      · rename_i hne
        have hpos : 0 < n := by
          rcases Nat.eq_zero_or_pos n with h0 | h0
          · subst h0; simp at hne
          · exact h0
        have hlt : n / b < n := Nat.div_lt_self hpos hb
        exact ih g (n / b) _ (by omega) (by omega)

theorem toDigits_small (n : Nat) (h : n < 10) : Nat.toDigits 10 n = [Nat.digitChar n] := by
  have h0 : n / 10 = 0 := Nat.div_eq_of_lt h
  have h1 : n % 10 = n := Nat.mod_eq_of_lt h
  simp [Nat.toDigits, Nat.toDigitsCore, h0, h1]

theorem toDigits_large (n : Nat) (h : 10 ≤ n) :
    Nat.toDigits 10 n = Nat.toDigits 10 (n / 10) ++ [Nat.digitChar (n % 10)] := by
  have h0 : n / 10 ≠ 0 := by omega
  have hlt : n / 10 < n := Nat.div_lt_self (by omega) (by omega)
  unfold Nat.toDigits
  rw [Nat.toDigitsCore]
  simp only [h0, if_false]
  rw [toDigitsCore_append,
    toDigitsCore_fuel 10 (by omega) n (n / 10 + 1) (n / 10) [] hlt (by omega)]

theorem decimalValueFrom_append (l : Bytes) (c : UInt8) :
    ∀ acc, decimalValueFrom acc (l ++ [c]) =
      (decimalValueFrom acc l).bind (fun v => (digitValue c).map (fun d => v * 10 + d)) := by
  induction l with
  | nil =>
    intro acc
    simp only [List.nil_append, decimalValueFrom]
    cases digitValue c <;> simp
  | cons x xs ih =>
    intro acc
    simp only [List.cons_append, decimalValueFrom]
    cases digitValue x with
    | none => simp
    | some d => simpa using ih (acc * 10 + d)

theorem digitValue_digitChar : ∀ d, d < 10 →
    digitValue (UInt8.ofNat (Nat.digitChar d).toNat) = some d := by
  decide

theorem decimalValueFrom_toDigits (n : Nat) :
    decimalValueFrom 0 ((Nat.toDigits 10 n).map (fun c => UInt8.ofNat c.toNat)) = some n := by
  induction n using Nat.strong_induction_on with
  | _ n ih =>
    by_cases h : n < 10
    · rw [toDigits_small n h]
      simp [decimalValueFrom, digitValue_digitChar n h]
    · have h10 : 10 ≤ n := by omega
      rw [toDigits_large n h10, List.map_append, List.map_singleton, decimalValueFrom_append,
        ih (n / 10) (Nat.div_lt_self (by omega) (by omega)),
        digitValue_digitChar (n % 10) (Nat.mod_lt _ (by omega))]
      simp
      omega

theorem toDigits_ne_nil (n : Nat) : Nat.toDigits 10 n ≠ [] := by
  by_cases h : n < 10
  · rw [toDigits_small n h]; simp
  · rw [toDigits_large n (by omega)]; simp

theorem decimalValue_fmt_d (n : Nat) : decimalValue (fmt_d (Int.ofNat n)) = some n := by
  unfold decimalValue fmt_d
  simp only [List.map_eq_nil_iff, toDigits_ne_nil, if_false]
  exact decimalValueFrom_toDigits n

/-! ## Lemmas on `bytes.ReplaceAll` -/

theorem isPrefixOf_iff_append (old : Bytes) :
    ∀ s : Bytes, old.isPrefixOf s = true ↔ ∃ rest, s = old ++ rest := by
  induction old with
  | nil => intro s; simp
  | cons o os ih =>
    intro s
    cases s with
    | nil => simp
    | cons c cs =>
      simp only [List.isPrefixOf, Bool.and_eq_true, beq_iff_eq, ih cs, List.cons_append,
        List.cons.injEq]
      constructor
      · rintro ⟨h1, rest, h2⟩
        exact ⟨rest, h1.symm, h2⟩
      · rintro ⟨rest, h1, h2⟩
        exact ⟨h1.symm, rest, h2⟩

theorem replaceFrom_skip (old new : Bytes) (xs rest : Bytes) :
    replaceFrom old new xs.length (xs ++ rest) = replaceFrom old new 0 rest := by
  induction xs with
  | nil => rfl
  | cons x xs ih => simpa [replaceFrom] using ih

theorem ReplaceAll_nil (old new : Bytes) : bytes_ReplaceAll [] old new = [] := rfl

theorem ReplaceAll_match (o : UInt8) (os new rest : Bytes) :
    bytes_ReplaceAll ((o :: os) ++ rest) (o :: os) new
      = new ++ bytes_ReplaceAll rest (o :: os) new := by
  unfold bytes_ReplaceAll
  have hp : (o :: os).isPrefixOf (o :: (os ++ rest)) = true :=
    (isPrefixOf_iff_append (o :: os) _).2 ⟨rest, rfl⟩
  rw [List.cons_append, replaceFrom, if_pos hp]
  simp only [List.length_cons, Nat.add_sub_cancel]
  rw [replaceFrom_skip]

theorem ReplaceAll_copy (old new : Bytes) (c : UInt8) (cs : Bytes)
    (h : old.isPrefixOf (c :: cs) = false) :
    bytes_ReplaceAll (c :: cs) old new = c :: bytes_ReplaceAll cs old new := by
  unfold bytes_ReplaceAll
  rw [replaceFrom]
  simp [h]

theorem isPrefixOf_head_ne (o : UInt8) (os : Bytes) (c : UInt8) (cs : Bytes) (h : c ≠ o) :
    (o :: os).isPrefixOf (c :: cs) = false := by
  have : o ≠ c := fun e => h e.symm
  simp [List.isPrefixOf, this]

/-- Bytes different from the first byte of `old` are copied. -/
theorem ReplaceAll_copy_word (o : UInt8) (os new : Bytes) (w : Bytes) (hw : ∀ a ∈ w, a ≠ o)
    (rest : Bytes) :
    bytes_ReplaceAll (w ++ rest) (o :: os) new = w ++ bytes_ReplaceAll rest (o :: os) new := by
  induction w with
  | nil => rfl
  | cons a w ih =>
    rw [List.cons_append, ReplaceAll_copy _ _ _ _
      (isPrefixOf_head_ne o os a _ (hw a (by simp)))]
    rw [ih (fun b hb => hw b (by simp [hb]))]
    rfl

/-- A word without the first byte of `new` that starts the result of a
replacement also starts the original. -/
theorem isPrefixOf_of_ReplaceAll (o : UInt8) (os : Bytes) (n : UInt8) (ns : Bytes) (w : Bytes)
    (hw : ∀ a ∈ w, a ≠ n) :
    ∀ x : Bytes, w.isPrefixOf (bytes_ReplaceAll x (o :: os) (n :: ns)) = true →
      w.isPrefixOf x = true := by
  induction w with
  | nil => intro x _; simp
  | cons a w ih =>
    intro x hx
    cases x with
    | nil => simp [ReplaceAll_nil] at hx
    | cons d ds =>
      cases hp : (o :: os).isPrefixOf (d :: ds) with
      | true =>
        obtain ⟨rest, hrest⟩ := (isPrefixOf_iff_append _ _).1 hp
        rw [hrest, ReplaceAll_match] at hx
        have hne : a ≠ n := hw a (by simp)
        simp [List.isPrefixOf, hne] at hx
      | false =>
        rw [ReplaceAll_copy _ _ _ _ hp] at hx
        simp only [List.isPrefixOf, Bool.and_eq_true, beq_iff_eq] at hx ⊢
        exact ⟨hx.1, ih (fun b hb => hw b (by simp [hb])) ds hx.2⟩

theorem substituteFrom_skip (xs rest : Bytes) :
    substituteFrom xs.length (xs ++ rest) = substituteFrom 0 rest := by
  induction xs with
  | nil => rfl
  | cons x xs ih => simpa [substituteFrom] using ih

theorem substitute_username (rest : Bytes) :
    substitutePlaceholders (bytes "\x7busername\x7d" ++ rest)
      = bytes "Michael" ++ substitutePlaceholders rest := by
  have hU : bytes "\x7busername\x7d" = 123 :: bytes "username\x7d" := by decide
  have hl : (bytes "username\x7d").length = 9 := by decide
  unfold substitutePlaceholders
  have hp : (bytes "\x7busername\x7d").isPrefixOf (123 :: (bytes "username\x7d" ++ rest)) = true :=
    (isPrefixOf_iff_append _ _).2 ⟨rest, by rw [hU]; rfl⟩
  conv_lhs => rw [hU, List.cons_append, substituteFrom, if_pos hp]
  have h9 : (bytes "\x7busername\x7d").length - 1 = (bytes "username\x7d").length := by decide
  rw [h9, substituteFrom_skip]

theorem substitute_balance (rest : Bytes) :
    substitutePlaceholders (bytes "\x7bbalance\x7d" ++ rest)
      = bytes "1 000.50" ++ substitutePlaceholders rest := by
  have hB : bytes "\x7bbalance\x7d" = 123 :: bytes "balance\x7d" := by decide
  unfold substitutePlaceholders
  have hp : (bytes "\x7bbalance\x7d").isPrefixOf (123 :: (bytes "balance\x7d" ++ rest)) = true :=
    (isPrefixOf_iff_append _ _).2 ⟨rest, by rw [hB]; rfl⟩
  have hq : (bytes "\x7busername\x7d").isPrefixOf (123 :: (bytes "balance\x7d" ++ rest)) = false := by
    have hU : bytes "\x7busername\x7d" = 123 :: 117 :: bytes "sername\x7d" := by decide
    have hb : bytes "balance\x7d" = 98 :: bytes "alance\x7d" := by decide
    rw [hU, hb]
    simp [List.isPrefixOf]
  conv_lhs => rw [hB, List.cons_append, substituteFrom, if_neg (by simp [hq]), if_pos hp]
  have h8 : (bytes "\x7bbalance\x7d").length - 1 = (bytes "balance\x7d").length := by decide
  rw [h8, substituteFrom_skip]

theorem substitute_copy (c : UInt8) (cs : Bytes)
    (hu : (bytes "\x7busername\x7d").isPrefixOf (c :: cs) = false)
    (hb : (bytes "\x7bbalance\x7d").isPrefixOf (c :: cs) = false) :
    substitutePlaceholders (c :: cs) = c :: substitutePlaceholders cs := by
  unfold substitutePlaceholders
  rw [substituteFrom]
  simp [hu, hb]

theorem ReplaceAll_twice_eq_substitute_aux : ∀ (k : Nat) (t : Bytes), t.length = k →
    bytes_ReplaceAll (bytes_ReplaceAll t (bytes "\x7busername\x7d") (bytes "Michael"))
        (bytes "\x7bbalance\x7d") (bytes "1 000.50")
      = substitutePlaceholders t := by
  have hU : bytes "\x7busername\x7d" = 123 :: bytes "username\x7d" := by decide
  have hB : bytes "\x7bbalance\x7d" = 123 :: bytes "balance\x7d" := by decide
  have hM : bytes "Michael" = 77 :: bytes "ichael" := by decide
  intro k
  induction k using Nat.strong_induction_on with
  | _ k ih =>
    intro t h
    cases t with
    | nil => rfl
    | cons c cs =>
      cases hu : (bytes "\x7busername\x7d").isPrefixOf (c :: cs) with
      | true =>
        obtain ⟨rest, hrest⟩ := (isPrefixOf_iff_append _ _).1 hu
        rw [hrest, substitute_username]
        conv_lhs => rw [hU, ReplaceAll_match, hB]
        rw [ReplaceAll_copy_word 123 _ _ (bytes "Michael") (by decide)]
        rw [← hB, ← hU, ih rest.length (by rw [← h, hrest]; simp; decide) rest rfl]
      | false =>
        cases hb : (bytes "\x7bbalance\x7d").isPrefixOf (c :: cs) with
        | true =>
          obtain ⟨rest, hrest⟩ := (isPrefixOf_iff_append _ _).1 hb
          rw [hrest, substitute_balance]
          have hcopy : bytes_ReplaceAll (bytes "\x7bbalance\x7d" ++ rest) (bytes "\x7busername\x7d")
              (bytes "Michael")
              = bytes "\x7bbalance\x7d" ++ bytes_ReplaceAll rest (bytes "\x7busername\x7d")
                  (bytes "Michael") := by
            rw [hrest] at hu
            conv_lhs => rw [hB, List.cons_append]
            rw [ReplaceAll_copy _ _ _ _ (by rw [hB] at hu; exact hu)]
            conv_lhs => rw [hU]
            rw [ReplaceAll_copy_word 123 _ _ (bytes "balance\x7d") (by decide)]
            rw [hB]; rfl
          rw [hcopy]
          conv_lhs => rw [hB, ReplaceAll_match]
          rw [← hB, ih rest.length (by rw [← h, hrest]; simp; decide) rest rfl]
        | false =>
          rw [substitute_copy c cs hu hb, ReplaceAll_copy _ _ _ _ hu]
          have hb2 : (bytes "\x7bbalance\x7d").isPrefixOf
              (c :: bytes_ReplaceAll cs (bytes "\x7busername\x7d") (bytes "Michael")) = false := by
            cases hb3 : (bytes "\x7bbalance\x7d").isPrefixOf
              (c :: bytes_ReplaceAll cs (bytes "\x7busername\x7d") (bytes "Michael")) with
            | false => rfl
            | true =>
              rw [hB] at hb3 hb
              simp only [List.isPrefixOf, Bool.and_eq_true, beq_iff_eq] at hb3
              have h2 := isPrefixOf_of_ReplaceAll 123 (bytes "username\x7d") 77 (bytes "ichael")
                (bytes "balance\x7d") (by decide) cs (by rw [← hU, ← hM]; exact hb3.2)
              simp [List.isPrefixOf, hb3.1, h2] at hb
          rw [ReplaceAll_copy _ _ _ _ hb2, ih cs.length (by rw [← h]; simp) cs rfl]

/-- The two passes of `bytes.ReplaceAll` in `includeIndexTemplate` give the
template with both placeholders replaced where they stand. -/
theorem ReplaceAll_twice_eq_substitute (t : Bytes) :
    bytes_ReplaceAll (bytes_ReplaceAll t (bytes "\x7busername\x7d") (bytes "Michael"))
        (bytes "\x7bbalance\x7d") (bytes "1 000.50")
      = substitutePlaceholders t :=
  ReplaceAll_twice_eq_substitute_aux t.length t rfl

/-! ## Lemmas on `writeResponse` -/

theorem bytes_append (a b : String) : bytes (a ++ b) = bytes a ++ bytes b := by
  simp [bytes]

theorem writeHeaders_cons (n i : Nat) (s : Bytes) (rest : List Bytes) (wr : Writer) :
    writeHeaders n i (s :: rest) wr =
      writeHeaders n (i + 1) rest
        { buf := wr.buf ++ ((if n = i + 1 then s ++ CRLF else s) ++ CRLF) } := rfl

theorem writeHeaders_eq (n : Nat) (rest : List Bytes) :
    ∀ (i : Nat) (wr : Writer), i + rest.length = n →
      writeHeaders n i rest wr =
        ({ buf := wr.buf ++ headerBlock rest ++ (if rest = [] then [] else CRLF) }, none) := by
  induction rest with
  | nil => intro i wr _; simp [writeHeaders, headerBlock]
  | cons s rest ih =>
    intro i wr hlen
    simp only [List.length_cons] at hlen
    rw [writeHeaders_cons]
    cases rest with
    | nil =>
      have hn : n = i + 1 := by simpa using hlen.symm
      simp [writeHeaders, headerBlock, hn]
    | cons s2 rest2 =>
      have hn : n ≠ i + 1 := by simp only [List.length_cons] at hlen; omega
      rw [ih (i + 1) _ (by simp only [List.length_cons] at hlen ⊢; omega)]
      simp [headerBlock, hn]

/-- All of `writeResponse` is one write to the connection of the status line,
the header lines (the last one with its second `CRLF`) and the body. -/
theorem writeResponse_eq (w : World) (status : Int) (strings : List Bytes)
    (file : Option Bytes) :
    writeResponse w status strings file =
      connWrite w (bytes "HTTP/1.1 " ++ fmt_d status ++ CRLF ++ headerBlock strings
        ++ (if strings = [] then [] else CRLF) ++ file.getD []) := by
  have hhead : bytes "HTTP/1.1 " = 72 :: (bytes "TTP/1.1 ") := by decide
  unfold writeResponse
  simp only [Writer.WriteString, List.nil_append]
  rw [writeHeaders_eq strings.length strings 0 _ (by simp)]
  cases file with
  | none =>
    simp only [Writer.Flush, Option.getD_none, List.append_nil]
    rw [if_neg (by rw [hhead]; simp)]
    cases connWrite w _ with
    | mk w1 e => cases e <;> simp [List.append_assoc]
  | some f =>
    simp only [Writer.Write, Writer.Flush, Option.getD_some]
    rw [if_neg (by rw [hhead]; simp)]
    cases connWrite w _ with
    | mk w1 e => cases e <;> simp [List.append_assoc]

theorem connWrite_of_writesSucceed (w : World) (p : Bytes) (h : w.writesSucceed) :
    connWrite w p = ({ w with written := w.written ++ p }, none) := by
  unfold World.writesSucceed at h
  simp [connWrite, h]

/-! ## Lemmas on `handle` -/

/-- Once a line is read and its path parsed, the body of `handle` is the
handler that the `switch` selects, run after the line is logged. -/
theorem handleBody_of_path (w : World) (line path : Bytes)
    (hread : bufio_ReadString w delim = (line, none))
    (hpath : getPath line = (path, none)) :
    handleBody w = dispatch path (logMsg w (bytes "received: " ++ line ++ bytes "\n")) := by
  unfold handleBody
  rw [hread]
  simp only [hpath]
  cases dispatch path (logMsg w (bytes "received: " ++ line ++ bytes "\n")) with
  | mk w2 e => cases e <;> rfl

theorem handle_of_path (w : World) (line path : Bytes)
    (hread : bufio_ReadString w delim = (line, none))
    (hpath : getPath line = (path, none)) :
    handle w =
      (connClose (dispatch path (logMsg w (bytes "received: " ++ line ++ bytes "\n"))).1,
        (dispatch path (logMsg w (bytes "received: " ++ line ++ bytes "\n"))).2) := by
  unfold handle
  rw [handleBody_of_path w line path hread hpath]

theorem firstLine_append_delim (d : UInt8) (l0 rest : Bytes) (h : d ∉ l0) :
    firstLine d (l0 ++ d :: rest) = some (l0 ++ [d]) := by
  induction l0 with
  | nil => simp [firstLine]
  | cons c cs ih =>
    have hc : c ≠ d := fun e => h (by simp [e])
    have hcs : d ∉ cs := fun e => h (by simp [e])
    simp [firstLine, hc, ih hcs]

/-- When the input holds a line feed, `ReadString` returns the bytes up to and
including the first one, with a `nil` error. -/
theorem bufio_ReadString_line (w : World) (l0 rest : Bytes) (h : delim ∉ l0)
    (hin : w.input = l0 ++ delim :: rest) :
    bufio_ReadString w delim = (l0 ++ [delim], none) := by
  unfold bufio_ReadString
  rw [hin, firstLine_append_delim delim l0 rest h]

theorem connClose_written (w : World) : (connClose w).written = w.written := by
  unfold connClose
  cases h : w.closeErr <;> simp [h, logMsg]

theorem connClose_fsReads (w : World) : (connClose w).fsReads = w.fsReads := by
  unfold connClose
  cases h : w.closeErr <;> simp [h, logMsg]

theorem connClose_closed (w : World) : (connClose w).closed = w.closed + 1 := by
  unfold connClose
  cases h : w.closeErr <;> simp [h, logMsg]

/-- On a connection that takes every write, `writeResponse` appends the whole
response to what was written, changes nothing else and returns no error. -/
theorem writeResponse_ok (w : World) (status : Int) (strings : List Bytes)
    (file : Option Bytes) (hw : w.writesSucceed) :
    writeResponse w status strings file =
      ({ w with written := w.written ++ (bytes "HTTP/1.1 " ++ fmt_d status ++ CRLF
            ++ headerBlock strings ++ (if strings = [] then [] else CRLF) ++ file.getD []) },
        none) := by
  rw [writeResponse_eq, connWrite_of_writesSucceed w _ hw]

theorem ioutil_ReadFile_ok (w : World) (name data : Bytes)
    (h : w.files name = Except.ok data) :
    ioutil_ReadFile w name = ({ w with fsReads := w.fsReads ++ [name] }, data, none) := by
  simp [ioutil_ReadFile, h]

/-- The response of a handler that serves `body` under three header lines, the
middle one being the `Content-Length` line. -/
theorem served_bytes (first last body : Bytes) :
    bytes "HTTP/1.1 " ++ fmt_d 200 ++ CRLF
        ++ headerBlock [first, bytes "Content-Length: " ++ fmt_d (Int.ofNat body.length), last]
        ++ (if [first, bytes "Content-Length: " ++ fmt_d (Int.ofNat body.length), last] = []
              then [] else CRLF)
        ++ (some body).getD []
      = bytes "HTTP/1.1 200\r\n" ++ first ++ bytes "\r\nContent-Length: "
          ++ fmt_d (Int.ofNat body.length) ++ bytes "\r\n" ++ last ++ bytes "\r\n\r\n"
          ++ body := by
  have e1 : bytes "HTTP/1.1 200\r\n" = bytes "HTTP/1.1 " ++ (fmt_d 200 ++ CRLF) := by decide
  have e2 : bytes "\r\nContent-Length: " = CRLF ++ bytes "Content-Length: " := by decide
  have e3 : bytes "\r\n" = CRLF := rfl
  have e4 : bytes "\r\n\r\n" = CRLF ++ CRLF := by decide
  rw [e1, e2, e3, e4]
  simp [headerBlock, List.append_assoc]

theorem writeTransactionsCsv_ok (w : World) (c : Bytes) (hw : w.writesSucceed)
    (hf : w.files (bytes "web/shared/transactions.csv") = Except.ok c) :
    writeTransactionsCsv w =
      ({ w with
          fsReads := w.fsReads ++ [bytes "web/shared/transactions.csv"]
          written := w.written ++ (bytes "HTTP/1.1 200\r\n" ++ bytes "Content-Type: text/csv"
            ++ bytes "\r\nContent-Length: " ++ fmt_d (Int.ofNat c.length) ++ bytes "\r\n"
            ++ bytes "Connection: close" ++ bytes "\r\n\r\n" ++ c) }, none) := by
  unfold writeTransactionsCsv
  rw [ioutil_ReadFile_ok w _ c hf]
  simp only
  rw [writeResponse_ok _ _ _ _ (by exact hw), served_bytes]

theorem writeTransactionsJson_ok (w : World) (c : Bytes) (hw : w.writesSucceed)
    (hf : w.files (bytes "web/shared/transactions.json") = Except.ok c) :
    writeTransactionsJson w =
      ({ w with
          fsReads := w.fsReads ++ [bytes "web/shared/transactions.json"]
          written := w.written ++ (bytes "HTTP/1.1 200\r\n"
            ++ bytes "application/json; charset=utf-8"
            ++ bytes "\r\nContent-Length: " ++ fmt_d (Int.ofNat c.length) ++ bytes "\r\n"
            ++ bytes "Connection: close" ++ bytes "\r\n\r\n" ++ c) }, none) := by
  unfold writeTransactionsJson
  rw [ioutil_ReadFile_ok w _ c hf]
  simp only
  rw [writeResponse_ok _ _ _ _ (by exact hw), served_bytes]

theorem writeTransactionsXml_ok (w : World) (c : Bytes) (hw : w.writesSucceed)
    (hf : w.files (bytes "web/shared/transactions.xml") = Except.ok c) :
    writeTransactionsXml w =
      ({ w with
          fsReads := w.fsReads ++ [bytes "web/shared/transactions.xml"]
          written := w.written ++ (bytes "HTTP/1.1 200\r\n" ++ bytes "application/xml"
            ++ bytes "\r\nContent-Length: " ++ fmt_d (Int.ofNat c.length) ++ bytes "\r\n"
            ++ bytes "Connection: close" ++ bytes "\r\n\r\n" ++ c) }, none) := by
  unfold writeTransactionsXml
  rw [ioutil_ReadFile_ok w _ c hf]
  simp only
  rw [writeResponse_ok _ _ _ _ (by exact hw), served_bytes]

theorem includeIndexTemplate_ok (w : World) (t : Bytes)
    (hf : w.files (bytes "web/template/index.html") = Except.ok t) :
    includeIndexTemplate w =
      ({ w with fsReads := w.fsReads ++ [bytes "web/template/index.html"] },
        substitutePlaceholders t, none) := by
  unfold includeIndexTemplate
  rw [ioutil_ReadFile_ok w _ t hf]
  simp only
  rw [ReplaceAll_twice_eq_substitute]

theorem writeIndex_ok (w : World) (t : Bytes) (hw : w.writesSucceed)
    (hf : w.files (bytes "web/template/index.html") = Except.ok t) :
    writeIndex w =
      ({ w with
          fsReads := w.fsReads ++ [bytes "web/template/index.html"]
          written := w.written ++ (bytes "HTTP/1.1 200\r\n" ++ bytes "Connection: close"
            ++ bytes "\r\nContent-Length: "
            ++ fmt_d (Int.ofNat (substitutePlaceholders t).length) ++ bytes "\r\n"
            ++ bytes "Content-Type: text/html; charset=utf-8" ++ bytes "\r\n\r\n"
            ++ substitutePlaceholders t) }, none) := by
  unfold writeIndex
  rw [includeIndexTemplate_ok w t hf]
  simp only
  rw [writeResponse_ok _ _ _ _ (by exact hw), served_bytes]

theorem write404_ok (w : World) (hw : w.writesSucceed) :
    write404 w =
      ({ w with written := w.written ++ bytes "HTTP/1.1 404\r\nConnection: close\r\n\r\n" },
        none) := by
  have e : bytes "HTTP/1.1 404\r\nConnection: close\r\n\r\n"
      = bytes "HTTP/1.1 " ++ fmt_d 404 ++ CRLF ++ headerBlock [bytes "Connection: close"]
          ++ CRLF := by decide
  unfold write404
  rw [writeResponse_ok _ _ _ _ hw, e]
  simp

/-- With a first line `l0 ++ "\n"` on the input whose path parses, `handle` logs
the line, runs the handler the path selects and closes the connection. -/
theorem handle_of_input (w : World) (l0 rest path : Bytes) (h : delim ∉ l0)
    (hin : w.input = l0 ++ delim :: rest)
    (hpath : getPath (l0 ++ [delim]) = (path, none)) :
    handle w =
      (connClose
          (dispatch path (logMsg w (bytes "received: " ++ (l0 ++ [delim]) ++ bytes "\n"))).1,
        (dispatch path (logMsg w (bytes "received: " ++ (l0 ++ [delim]) ++ bytes "\n"))).2) :=
  handle_of_path w (l0 ++ [delim]) path (bufio_ReadString_line w l0 rest h hin) hpath

theorem served_layout (first last len body : Bytes) :
    bytes "HTTP/1.1 200\r\n" ++ first ++ bytes "\r\nContent-Length: " ++ len ++ bytes "\r\n"
        ++ last ++ bytes "\r\n\r\n" ++ body
      = bytes "HTTP/1.1 200" ++ CRLF ++ first ++ CRLF ++ (bytes "Content-Length: " ++ len)
          ++ CRLF ++ last ++ CRLF ++ CRLF ++ body := by
  have e1 : bytes "HTTP/1.1 200\r\n" = bytes "HTTP/1.1 200" ++ CRLF := by decide
  have e2 : bytes "\r\nContent-Length: " = CRLF ++ bytes "Content-Length: " := by decide
  have e3 : bytes "\r\n" = CRLF := rfl
  have e4 : bytes "\r\n\r\n" = CRLF ++ CRLF := by decide
  rw [e1, e2, e3, e4]
  simp only [List.append_assoc]

/-- The input starts with the request line `l0 ++ "\n"`, given as one literal. -/
theorem input_line_split (w : World) (line l0 rest : Bytes) (hl : line = l0 ++ [delim])
    (hin : w.input = line ++ rest) : w.input = l0 ++ delim :: rest := by
  rw [hin, hl]
  simp

theorem headerBlock_append_last (hs : List Bytes) (l : Bytes) :
    headerBlock (hs ++ [l]) = headerBlock hs ++ l ++ CRLF := by
  induction hs with
  | nil => simp [headerBlock]
  | cons h rest ih => simp [headerBlock, ih, List.append_assoc]

/-- The header block of a non-empty list ends with its last line and one
`CRLF`. -/
theorem headerBlock_last (strings : List Bytes) (hne : strings ≠ []) :
    headerBlock strings = headerBlock strings.dropLast ++ strings.getLast hne ++ CRLF := by
  conv_lhs => rw [← List.dropLast_append_getLast hne]
  rw [headerBlock_append_last]

/-! ## The request-line parser -/

/-- C1: a request line made of exactly three tokens separated by single spaces
(no token contains a space) splits into these three tokens, and `getPath`
returns the middle one as the path, with no error. -/
theorem getPath_three_tokens (m p v : Bytes) (hm : SP ∉ m) (hp : SP ∉ p) (hv : SP ∉ v) :
    strings_Split (m ++ SP :: (p ++ SP :: v)) SP = [m, p, v] ∧
      getPath (m ++ SP :: (p ++ SP :: v)) = (p, none) := by
  exact ⟨strings_Split_three m p v hm hp hv, getPath_of_three m p v hm hp hv⟩

theorem getPath_three_tokens_witness :
    SP ∉ bytes "GET" ∧ SP ∉ bytes "/index" ∧ SP ∉ bytes "HTTP/1.1\n" ∧
      getPath (bytes "GET" ++ SP :: (bytes "/index" ++ SP :: bytes "HTTP/1.1\n"))
        = (bytes "/index", none) :=
  ⟨by decide, by decide, by decide,
    (getPath_three_tokens (bytes "GET") (bytes "/index") (bytes "HTTP/1.1\n")
      (by decide) (by decide) (by decide)).2⟩

/-- C2: the tokens of a line are its parts between single spaces, one more than
it has spaces.  When their number is not three, `getPath` returns the empty path
and an error whose message is `invalid request line ` followed by the line
itself. -/
theorem getPath_wrong_token_count (line : Bytes)
    (h : (strings_Split line SP).length ≠ 3) :
    (strings_Split line SP).length = line.count SP + 1 ∧
      getPath line = ([], some (GoError.New (bytes "invalid request line " ++ line))) ∧
      (GoError.New (bytes "invalid request line " ++ line)).Error
        = bytes "invalid request line " ++ line := by
  refine ⟨strings_Split_length line SP, ?_, rfl⟩
  simp [getPath, h]

theorem getPath_wrong_token_count_witness :
    ((strings_Split (bytes "GET / HTTP/1.1 extra\n") SP).length ≠ 3 ∧
        getPath (bytes "GET / HTTP/1.1 extra\n")
          = ([], some (GoError.New (bytes "invalid request line GET / HTTP/1.1 extra\n")))) ∧
      ((strings_Split (bytes "BADLINE\n") SP).length ≠ 3 ∧
        getPath (bytes "BADLINE\n")
          = ([], some (GoError.New (bytes "invalid request line BADLINE\n")))) :=
  ⟨⟨by decide,
      ((getPath_wrong_token_count (bytes "GET / HTTP/1.1 extra\n") (by decide)).2.1).trans
        (by decide)⟩,
    ⟨by decide,
      ((getPath_wrong_token_count (bytes "BADLINE\n") (by decide)).2.1).trans (by decide)⟩⟩

/-! ## The router -/

/-- C3: with a line read and its path parsed, `handle` runs the index handler
for the path `/`, the CSV handler for `/transactions.csv`, the JSON handler for
`/transactions.json`, the XML handler for `/transactions.xml`, and the 404
handler for every other path; the empty path and `/?a=1` are among the
others. -/
theorem handle_routes_by_exact_path (w : World) (line path : Bytes)
    (hread : bufio_ReadString w delim = (line, none))
    (hpath : getPath line = (path, none)) :
    (path = bytes "/" →
        handle w =
          (connClose (writeIndex (logMsg w (bytes "received: " ++ line ++ bytes "\n"))).1,
            (writeIndex (logMsg w (bytes "received: " ++ line ++ bytes "\n"))).2)) ∧
      (path = bytes "/transactions.csv" →
        handle w =
          (connClose
              (writeTransactionsCsv (logMsg w (bytes "received: " ++ line ++ bytes "\n"))).1,
            (writeTransactionsCsv (logMsg w (bytes "received: " ++ line ++ bytes "\n"))).2)) ∧
      (path = bytes "/transactions.json" →
        handle w =
          (connClose
              (writeTransactionsJson (logMsg w (bytes "received: " ++ line ++ bytes "\n"))).1,
            (writeTransactionsJson (logMsg w (bytes "received: " ++ line ++ bytes "\n"))).2)) ∧
      (path = bytes "/transactions.xml" →
        handle w =
          (connClose
              (writeTransactionsXml (logMsg w (bytes "received: " ++ line ++ bytes "\n"))).1,
            (writeTransactionsXml (logMsg w (bytes "received: " ++ line ++ bytes "\n"))).2)) ∧
      (path ≠ bytes "/" → path ≠ bytes "/transactions.csv" →
        path ≠ bytes "/transactions.json" → path ≠ bytes "/transactions.xml" →
        handle w =
          (connClose (write404 (logMsg w (bytes "received: " ++ line ++ bytes "\n"))).1,
            (write404 (logMsg w (bytes "received: " ++ line ++ bytes "\n"))).2)) ∧
      dispatch [] = write404 ∧ dispatch (bytes "/?a=1") = write404 := by
  rw [handle_of_path w line path hread hpath]
  refine ⟨?_, ?_, ?_, ?_, ?_, ?_, ?_⟩
  · intro h; subst h; rfl
  · intro h; subst h; rfl
  · intro h; subst h; rfl
  · intro h; subst h; rfl
  · intro h1 h2 h3 h4
    simp [dispatch, h1, h2, h3, h4]
  · rfl
  · rfl

theorem handle_routes_by_exact_path_witness :
    bufio_ReadString (freshWorld (bytes "GET /?a=1 HTTP/1.1\n") noFiles) delim
        = (bytes "GET /?a=1 HTTP/1.1\n", none) ∧
      getPath (bytes "GET /?a=1 HTTP/1.1\n") = (bytes "/?a=1", none) ∧
      handle (freshWorld (bytes "GET /?a=1 HTTP/1.1\n") noFiles) =
        (connClose (write404 (logMsg (freshWorld (bytes "GET /?a=1 HTTP/1.1\n") noFiles)
            (bytes "received: " ++ bytes "GET /?a=1 HTTP/1.1\n" ++ bytes "\n"))).1,
          (write404 (logMsg (freshWorld (bytes "GET /?a=1 HTTP/1.1\n") noFiles)
            (bytes "received: " ++ bytes "GET /?a=1 HTTP/1.1\n" ++ bytes "\n"))).2) :=
  ⟨by decide, by decide,
    (handle_routes_by_exact_path (freshWorld (bytes "GET /?a=1 HTTP/1.1\n") noFiles)
      (bytes "GET /?a=1 HTTP/1.1\n") (bytes "/?a=1") (by decide) (by decide)).2.2.2.2.1
      (by decide) (by decide) (by decide) (by decide)⟩

/-! ## The response writer -/

/-- With an empty list of header lines the loop of `writeResponse` never runs,
so nothing adds the empty line.  For every status and body the bytes are the
status line followed at once by the body, and with status 200 and no body they
are `HTTP/1.1 200\r\n` alone, a head that no blank line ends.  No call of
`writeResponse` in the program passes an empty list. -/
theorem writeResponse_no_headers_no_blank_line (w : World) (status : Int)
    (file : Option Bytes) :
    writeResponse w status [] file
        = connWrite w (bytes "HTTP/1.1 " ++ fmt_d status ++ CRLF ++ file.getD []) ∧
      (writeResponse (freshWorld [] noFiles) 200 [] none).1.written
        = bytes "HTTP/1.1 200\r\n" ∧
      (writeResponse (freshWorld [] noFiles) 200 [] none).2 = none := by
  refine ⟨?_, by decide, by decide⟩
  rw [writeResponse_eq]
  simp [headerBlock]

/-- Counterexample to C4 as stated: with status 200, the empty list of header
lines and no body, on a connection that takes every write, `writeResponse`
writes `HTTP/1.1 200\r\n` and returns no error.  These are not the bytes the
claim gives (status line, no header line, one empty line), and they do not end
with a blank line. -/
theorem writeResponse_empty_headers_counterexample :
    (writeResponse (freshWorld [] noFiles) 200 [] none).2 = none ∧
      (writeResponse (freshWorld [] noFiles) 200 [] none).1.written
        = bytes "HTTP/1.1 200\r\n" ∧
      (writeResponse (freshWorld [] noFiles) 200 [] none).1.written
        ≠ bytes "HTTP/1.1 " ++ fmt_d 200 ++ CRLF ++ headerBlock [] ++ CRLF
            ++ (none : Option Bytes).getD [] ∧
      (CRLF ++ CRLF).isSuffixOf
        (writeResponse (freshWorld [] noFiles) 200 [] none).1.written = false := by
  decide

/-- C4, amended to a non-empty list of header lines: for every status code,
every non-empty list of header lines and every optional body, `writeResponse`
is one write of the status line, the header lines before the last one each with
its `CRLF`, the last header line with its `CRLF`, exactly one more `CRLF` right
after it, and then the body if there is one.  On a connection that takes every
write these bytes are appended and no error is returned; without a body the
bytes written end with the last header line, its `CRLF` and the one empty
line. -/
theorem writeResponse_blank_line_after_last_header (w : World) (status : Int)
    (strings : List Bytes) (file : Option Bytes) (hne : strings ≠ []) :
    writeResponse w status strings file
        = connWrite w (bytes "HTTP/1.1 " ++ fmt_d status ++ CRLF
            ++ headerBlock strings.dropLast ++ (strings.getLast hne ++ CRLF) ++ CRLF
            ++ file.getD []) ∧
      (w.writesSucceed →
        (writeResponse w status strings file).2 = none ∧
          (writeResponse w status strings file).1.written
            = w.written ++ (bytes "HTTP/1.1 " ++ fmt_d status ++ CRLF
                ++ headerBlock strings.dropLast ++ (strings.getLast hne ++ CRLF) ++ CRLF
                ++ file.getD []) ∧
          (file = none →
            (writeResponse w status strings file).1.written
              = (w.written ++ (bytes "HTTP/1.1 " ++ fmt_d status ++ CRLF
                  ++ headerBlock strings.dropLast)) ++ strings.getLast hne
                  ++ (CRLF ++ CRLF))) := by
  have heq : writeResponse w status strings file
      = connWrite w (bytes "HTTP/1.1 " ++ fmt_d status ++ CRLF
          ++ headerBlock strings.dropLast ++ (strings.getLast hne ++ CRLF) ++ CRLF
          ++ file.getD []) := by
    rw [writeResponse_eq, if_neg hne, headerBlock_last strings hne]
    simp only [List.append_assoc]
  refine ⟨heq, fun hw => ?_⟩
  rw [heq, connWrite_of_writesSucceed w _ hw]
  refine ⟨rfl, rfl, fun hf => ?_⟩
  subst hf
  simp only [Option.getD_none, List.append_nil, List.append_assoc]

theorem writeResponse_blank_line_after_last_header_witness :
    [bytes "Connection: close"] ≠ [] ∧
      (freshWorld [] noFiles).writesSucceed ∧
      (writeResponse (freshWorld [] noFiles) 404 [bytes "Connection: close"] none).1.written
        = bytes "HTTP/1.1 404\r\nConnection: close\r\n\r\n" ∧
      (writeResponse (freshWorld [] noFiles) 200
          [bytes "Content-Type: text/csv", bytes "Content-Length: 2", bytes "Connection: close"]
          (some (bytes "ab"))).1.written
        = bytes ("HTTP/1.1 200\r\nContent-Type: text/csv\r\nContent-Length: 2\r\n"
            ++ "Connection: close\r\n\r\nab") :=
  ⟨by decide, rfl,
    ((((writeResponse_blank_line_after_last_header (freshWorld [] noFiles) 404
      [bytes "Connection: close"] none (by decide)).2 rfl).2.2 rfl)).trans (by decide),
    ((((writeResponse_blank_line_after_last_header (freshWorld [] noFiles) 200
      [bytes "Content-Type: text/csv", bytes "Content-Length: 2", bytes "Connection: close"]
      (some (bytes "ab")) (by decide)).2 rfl).2.1)).trans (by decide)⟩

/-- C5: for a status code, a non-empty list of header lines and an optional
body, `writeResponse` is one write to the connection of `HTTP/1.1 `, the decimal
status, `CRLF`, every header line followed by `CRLF` in the order given, one more
`CRLF`, and the body bytes as they are (nothing when the body is absent).  On a
connection that takes every write these bytes are appended to what was written
and no error is returned. -/
theorem writeResponse_bytes (w : World) (status : Int) (h : Bytes) (hs : List Bytes)
    (file : Option Bytes) :
    writeResponse w status (h :: hs) file
        = connWrite w (bytes "HTTP/1.1 " ++ fmt_d status ++ CRLF ++ headerBlock (h :: hs)
            ++ CRLF ++ file.getD []) ∧
      (w.writesSucceed →
        (writeResponse w status (h :: hs) file).1.written
            = w.written ++ (bytes "HTTP/1.1 " ++ fmt_d status ++ CRLF ++ headerBlock (h :: hs)
                ++ CRLF ++ file.getD []) ∧
          (writeResponse w status (h :: hs) file).2 = none) := by
  have heq : writeResponse w status (h :: hs) file
      = connWrite w (bytes "HTTP/1.1 " ++ fmt_d status ++ CRLF ++ headerBlock (h :: hs)
          ++ CRLF ++ file.getD []) := by
    rw [writeResponse_eq]
    simp
  refine ⟨heq, ?_⟩
  intro hw
  rw [heq, connWrite_of_writesSucceed w _ hw]
  exact ⟨rfl, rfl⟩

theorem writeResponse_bytes_witness :
    (freshWorld [] noFiles).writesSucceed ∧
      (writeResponse (freshWorld [] noFiles) 200
          [bytes "Content-Type: text/csv", bytes "Content-Length: 2"]
          (some (bytes "ab"))).1.written
        = bytes "HTTP/1.1 200\r\nContent-Type: text/csv\r\nContent-Length: 2\r\n\r\nab" :=
  ⟨rfl, by
    have h := ((writeResponse_bytes (freshWorld [] noFiles) 200
      (bytes "Content-Type: text/csv") [bytes "Content-Length: 2"]
      (some (bytes "ab"))).2 rfl).1
    rw [h]
    decide⟩

/-! ## The handlers -/

/-- C6: on a connection that takes every write, each handler that sends a body
writes a `Content-Length` line whose value is the decimal of the number of body
bytes that follow the blank line.  For the index handler the body is the
template after the substitution of the placeholders, and the value is the length
of that body; for the CSV, JSON and XML handlers the body is the file as read. -/
theorem content_length_is_body_length (w : World) (c : Bytes) (hw : w.writesSucceed) :
    (w.files (bytes "web/template/index.html") = Except.ok c →
        (writeIndex w).1.written
            = w.written ++ bytes "HTTP/1.1 200\r\nConnection: close\r\nContent-Length: "
                ++ fmt_d (Int.ofNat (substitutePlaceholders c).length)
                ++ bytes "\r\nContent-Type: text/html; charset=utf-8\r\n\r\n"
                ++ substitutePlaceholders c ∧
          decimalValue (fmt_d (Int.ofNat (substitutePlaceholders c).length))
            = some (substitutePlaceholders c).length) ∧
      (w.files (bytes "web/shared/transactions.csv") = Except.ok c →
        (writeTransactionsCsv w).1.written
            = w.written ++ bytes "HTTP/1.1 200\r\nContent-Type: text/csv\r\nContent-Length: "
                ++ fmt_d (Int.ofNat c.length) ++ bytes "\r\nConnection: close\r\n\r\n" ++ c ∧
          decimalValue (fmt_d (Int.ofNat c.length)) = some c.length) ∧
      (w.files (bytes "web/shared/transactions.json") = Except.ok c →
        (writeTransactionsJson w).1.written
            = w.written
                ++ bytes "HTTP/1.1 200\r\napplication/json; charset=utf-8\r\nContent-Length: "
                ++ fmt_d (Int.ofNat c.length) ++ bytes "\r\nConnection: close\r\n\r\n" ++ c ∧
          decimalValue (fmt_d (Int.ofNat c.length)) = some c.length) ∧
      (w.files (bytes "web/shared/transactions.xml") = Except.ok c →
        (writeTransactionsXml w).1.written
            = w.written ++ bytes "HTTP/1.1 200\r\napplication/xml\r\nContent-Length: "
                ++ fmt_d (Int.ofNat c.length) ++ bytes "\r\nConnection: close\r\n\r\n" ++ c ∧
          decimalValue (fmt_d (Int.ofNat c.length)) = some c.length) := by
  have e1 : bytes "HTTP/1.1 200\r\nConnection: close\r\nContent-Length: "
      = bytes "HTTP/1.1 200\r\n" ++ bytes "Connection: close" ++ bytes "\r\nContent-Length: " := by
    decide
  have e2 : bytes "\r\nContent-Type: text/html; charset=utf-8\r\n\r\n"
      = bytes "\r\n" ++ bytes "Content-Type: text/html; charset=utf-8" ++ bytes "\r\n\r\n" := by
    decide
  have e3 : bytes "HTTP/1.1 200\r\nContent-Type: text/csv\r\nContent-Length: "
      = bytes "HTTP/1.1 200\r\n" ++ bytes "Content-Type: text/csv"
          ++ bytes "\r\nContent-Length: " := by
    decide
  have e4 : bytes "\r\nConnection: close\r\n\r\n"
      = bytes "\r\n" ++ bytes "Connection: close" ++ bytes "\r\n\r\n" := by
    decide
  have e5 : bytes "HTTP/1.1 200\r\napplication/json; charset=utf-8\r\nContent-Length: "
      = bytes "HTTP/1.1 200\r\n" ++ bytes "application/json; charset=utf-8"
          ++ bytes "\r\nContent-Length: " := by
    decide
  have e6 : bytes "HTTP/1.1 200\r\napplication/xml\r\nContent-Length: "
      = bytes "HTTP/1.1 200\r\n" ++ bytes "application/xml" ++ bytes "\r\nContent-Length: " := by
    decide
  refine ⟨fun hf => ⟨?_, decimalValue_fmt_d _⟩, fun hf => ⟨?_, decimalValue_fmt_d _⟩,
    fun hf => ⟨?_, decimalValue_fmt_d _⟩, fun hf => ⟨?_, decimalValue_fmt_d _⟩⟩
  · rw [writeIndex_ok w c hw hf, e1, e2]
    simp only [List.append_assoc]
  · rw [writeTransactionsCsv_ok w c hw hf, e3, e4]
    simp only [List.append_assoc]
  · rw [writeTransactionsJson_ok w c hw hf, e5, e4]
    simp only [List.append_assoc]
  · rw [writeTransactionsXml_ok w c hw hf, e6, e4]
    simp only [List.append_assoc]

theorem content_length_is_body_length_witness :
    (freshWorld [] sampleFiles).writesSucceed ∧
      (freshWorld [] sampleFiles).files (bytes "web/template/index.html")
        = Except.ok (bytes "<p>\x7busername\x7d: \x7bbalance\x7d</p>") ∧
      (bytes "<p>\x7busername\x7d: \x7bbalance\x7d</p>").length = 28 ∧
      (writeIndex (freshWorld [] sampleFiles)).1.written
        = bytes ("HTTP/1.1 200\r\nConnection: close\r\nContent-Length: 24\r\n"
            ++ "Content-Type: text/html; charset=utf-8\r\n\r\n<p>Michael: 1 000.50</p>") ∧
      (writeTransactionsCsv (freshWorld [] sampleFiles)).1.written
        = bytes ("HTTP/1.1 200\r\nContent-Type: text/csv\r\nContent-Length: 8\r\n"
            ++ "Connection: close\r\n\r\na,b\n1,2\n") ∧
      (writeTransactionsJson (freshWorld [] sampleFiles)).1.written
        = bytes ("HTTP/1.1 200\r\napplication/json; charset=utf-8\r\nContent-Length: 5\r\n"
            ++ "Connection: close\r\n\r\n[1,2]") ∧
      (writeTransactionsXml (freshWorld [] sampleFiles)).1.written
        = bytes ("HTTP/1.1 200\r\napplication/xml\r\nContent-Length: 4\r\n"
            ++ "Connection: close\r\n\r\n<t/>") :=
  ⟨rfl, rfl, by decide,
    (((content_length_is_body_length (freshWorld [] sampleFiles)
      (bytes "<p>\x7busername\x7d: \x7bbalance\x7d</p>") rfl).1 rfl).1).trans (by decide),
    (((content_length_is_body_length (freshWorld [] sampleFiles)
      (bytes "a,b\n1,2\n") rfl).2.1 rfl).1).trans (by decide),
    (((content_length_is_body_length (freshWorld [] sampleFiles)
      (bytes "[1,2]") rfl).2.2.1 rfl).1).trans (by decide),
    (((content_length_is_body_length (freshWorld [] sampleFiles)
      (bytes "<t/>") rfl).2.2.2 rfl).1).trans (by decide)⟩

/-- C7: when the first line of the input has exactly three tokens separated by
single spaces and the middle one is none of the four recognized paths, then on
a connection that takes every write `handle` writes exactly
`HTTP/1.1 404\r\nConnection: close\r\n\r\n`, returns no error and asks the file
system for nothing. -/
theorem handle_unknown_path_404 (w : World) (m p v rest : Bytes)
    (hin : w.input = m ++ SP :: (p ++ SP :: (v ++ delim :: rest)))
    (hm : SP ∉ m ∧ delim ∉ m) (hp : SP ∉ p ∧ delim ∉ p) (hv : SP ∉ v ∧ delim ∉ v)
    (h1 : p ≠ bytes "/") (h2 : p ≠ bytes "/transactions.csv")
    (h3 : p ≠ bytes "/transactions.json") (h4 : p ≠ bytes "/transactions.xml")
    (hw : w.writesSucceed) :
    (handle w).1.written = w.written ++ bytes "HTTP/1.1 404\r\nConnection: close\r\n\r\n" ∧
      (handle w).2 = none ∧ (handle w).1.fsReads = w.fsReads := by
  have hsd : SP ≠ delim := by decide
  have hl0 : delim ∉ m ++ SP :: (p ++ SP :: v) := by
    simp only [List.mem_append, List.mem_cons, not_or]
    exact ⟨hm.2, fun e => hsd e.symm, hp.2, fun e => hsd e.symm, hv.2⟩
  have hv2 : SP ∉ v ++ [delim] := by
    simp only [List.mem_append, List.mem_singleton, not_or]
    exact ⟨hv.1, hsd⟩
  have hline : (m ++ SP :: (p ++ SP :: v)) ++ [delim] = m ++ SP :: (p ++ SP :: (v ++ [delim])) := by
    simp
  have hpath : getPath ((m ++ SP :: (p ++ SP :: v)) ++ [delim]) = (p, none) := by
    rw [hline]
    exact getPath_of_three m p (v ++ [delim]) hm.1 hp.1 hv2
  have hin2 : w.input = (m ++ SP :: (p ++ SP :: v)) ++ delim :: rest := by
    rw [hin]; simp
  rw [handle_of_input w _ rest p hl0 hin2 hpath]
  have hd : dispatch p = write404 := by
    funext x
    simp [dispatch, h1, h2, h3, h4]
  rw [hd, write404_ok _ (by exact hw)]
  simp [connClose_written, connClose_fsReads, logMsg]

theorem handle_unknown_path_404_witness :
    (handle (freshWorld (bytes "GET /nope HTTP/1.1\n") noFiles)).1.written
        = bytes "HTTP/1.1 404\r\nConnection: close\r\n\r\n" ∧
      (handle (freshWorld (bytes "GET /nope HTTP/1.1\n") noFiles)).2 = none ∧
      (handle (freshWorld (bytes "GET /nope HTTP/1.1\n") noFiles)).1.fsReads = [] :=
  handle_unknown_path_404 (freshWorld (bytes "GET /nope HTTP/1.1\n") noFiles)
    (bytes "GET") (bytes "/nope") (bytes "HTTP/1.1") [] (by decide)
    (by decide) (by decide) (by decide) (by decide) (by decide) (by decide) (by decide) rfl

/-- C8: for every content `c` of the CSV resource, when the input starts with
the line `GET /transactions.csv HTTP/1.1\n`, then on a connection that takes
every write `handle` writes the status line `HTTP/1.1 200`, the header lines
`Content-Type: text/csv`, `Content-Length: ` with the decimal length of `c`, and
`Connection: close` in this order, a blank line and the body `c`, and returns no
error. -/
theorem handle_csv_response (w : World) (c rest : Bytes)
    (hin : w.input = bytes "GET /transactions.csv HTTP/1.1\n" ++ rest)
    (hf : w.files (bytes "web/shared/transactions.csv") = Except.ok c)
    (hw : w.writesSucceed) :
    (handle w).1.written
        = w.written ++ (bytes "HTTP/1.1 200" ++ CRLF
            ++ bytes "Content-Type: text/csv" ++ CRLF
            ++ (bytes "Content-Length: " ++ fmt_d (Int.ofNat c.length)) ++ CRLF
            ++ bytes "Connection: close" ++ CRLF
            ++ CRLF ++ c) ∧
      (handle w).2 = none := by
  have hin2 := input_line_split w _ (bytes "GET /transactions.csv HTTP/1.1") rest
    (by decide) hin
  rw [handle_of_input w _ rest (bytes "/transactions.csv") (by decide) hin2 (by decide)]
  have hd : dispatch (bytes "/transactions.csv") = writeTransactionsCsv := rfl
  rw [hd, writeTransactionsCsv_ok _ c (by exact hw) (by exact hf), served_layout]
  simp [connClose_written, logMsg]

theorem handle_csv_response_witness :
    (handle (freshWorld (bytes "GET /transactions.csv HTTP/1.1\n")
        (oneFile (bytes "web/shared/transactions.csv") (bytes "a,b\n1,2\n")))).1.written
      = bytes ("HTTP/1.1 200\r\nContent-Type: text/csv\r\nContent-Length: 8\r\n"
          ++ "Connection: close\r\n\r\na,b\n1,2\n") :=
  ((handle_csv_response
      (freshWorld (bytes "GET /transactions.csv HTTP/1.1\n")
        (oneFile (bytes "web/shared/transactions.csv") (bytes "a,b\n1,2\n")))
      (bytes "a,b\n1,2\n") [] (by decide) rfl rfl).1).trans (by decide)

/-- C9: for every content `t` of the index template, when the input starts with
the line `GET / HTTP/1.1\n`, then on a connection that takes every write
`handle` writes the status line `HTTP/1.1 200`, the header lines
`Connection: close`, `Content-Length: ` with the decimal length of the body, and
`Content-Type: text/html; charset=utf-8` in this order, a blank line and the
body, which is `t` with every `{username}` replaced by `Michael` and every
`{balance}` replaced by `1 000.50`; no error is returned. -/
theorem handle_index_response (w : World) (t rest : Bytes)
    (hin : w.input = bytes "GET / HTTP/1.1\n" ++ rest)
    (hf : w.files (bytes "web/template/index.html") = Except.ok t)
    (hw : w.writesSucceed) :
    (handle w).1.written
        = w.written ++ (bytes "HTTP/1.1 200" ++ CRLF
            ++ bytes "Connection: close" ++ CRLF
            ++ (bytes "Content-Length: "
                ++ fmt_d (Int.ofNat (substitutePlaceholders t).length)) ++ CRLF
            ++ bytes "Content-Type: text/html; charset=utf-8" ++ CRLF
            ++ CRLF ++ substitutePlaceholders t) ∧
      (handle w).2 = none := by
  have hin2 := input_line_split w _ (bytes "GET / HTTP/1.1") rest (by decide) hin
  rw [handle_of_input w _ rest (bytes "/") (by decide) hin2 (by decide)]
  have hd : dispatch (bytes "/") = writeIndex := rfl
  rw [hd, writeIndex_ok _ t (by exact hw) (by exact hf), served_layout]
  simp [connClose_written, logMsg]

theorem handle_index_response_witness :
    (handle (freshWorld (bytes "GET / HTTP/1.1\n") sampleFiles)).1.written
      = bytes ("HTTP/1.1 200\r\nConnection: close\r\nContent-Length: 24\r\n"
          ++ "Content-Type: text/html; charset=utf-8\r\n\r\n<p>Michael: 1 000.50</p>") :=
  ((handle_index_response (freshWorld (bytes "GET / HTTP/1.1\n") sampleFiles)
      (bytes "<p>\x7busername\x7d: \x7bbalance\x7d</p>") [] (by decide) rfl rfl).1).trans (by decide)

/-- C10: for every file content `c`, on a connection that takes every write the
routes `/transactions.json` and `/transactions.xml` answer with the status line
`HTTP/1.1 200` and three header lines in this order: the bare content-type value
without a `Content-Type:` key (`application/json; charset=utf-8`, respectively
`application/xml`), `Content-Length: ` with the decimal length of `c`, and
`Connection: close`; then a blank line and the file bytes as the body. -/
theorem handle_json_xml_response (w : World) (c rest : Bytes) (hw : w.writesSucceed) :
    (w.input = bytes "GET /transactions.json HTTP/1.1\n" ++ rest →
        w.files (bytes "web/shared/transactions.json") = Except.ok c →
        (handle w).1.written
            = w.written ++ (bytes "HTTP/1.1 200" ++ CRLF
                ++ bytes "application/json; charset=utf-8" ++ CRLF
                ++ (bytes "Content-Length: " ++ fmt_d (Int.ofNat c.length)) ++ CRLF
                ++ bytes "Connection: close" ++ CRLF
                ++ CRLF ++ c) ∧
          (handle w).2 = none) ∧
      (w.input = bytes "GET /transactions.xml HTTP/1.1\n" ++ rest →
        w.files (bytes "web/shared/transactions.xml") = Except.ok c →
        (handle w).1.written
            = w.written ++ (bytes "HTTP/1.1 200" ++ CRLF
                ++ bytes "application/xml" ++ CRLF
                ++ (bytes "Content-Length: " ++ fmt_d (Int.ofNat c.length)) ++ CRLF
                ++ bytes "Connection: close" ++ CRLF
                ++ CRLF ++ c) ∧
          (handle w).2 = none) := by
  constructor
  · intro hin hf
    have hin2 := input_line_split w _ (bytes "GET /transactions.json HTTP/1.1") rest
      (by decide) hin
    rw [handle_of_input w _ rest (bytes "/transactions.json") (by decide) hin2 (by decide)]
    have hd : dispatch (bytes "/transactions.json") = writeTransactionsJson := rfl
    rw [hd, writeTransactionsJson_ok _ c (by exact hw) (by exact hf), served_layout]
    simp [connClose_written, logMsg]
  · intro hin hf
    have hin2 := input_line_split w _ (bytes "GET /transactions.xml HTTP/1.1") rest
      (by decide) hin
    rw [handle_of_input w _ rest (bytes "/transactions.xml") (by decide) hin2 (by decide)]
    have hd : dispatch (bytes "/transactions.xml") = writeTransactionsXml := rfl
    rw [hd, writeTransactionsXml_ok _ c (by exact hw) (by exact hf), served_layout]
    simp [connClose_written, logMsg]

theorem handle_json_xml_response_witness :
    (handle (freshWorld (bytes "GET /transactions.json HTTP/1.1\n") sampleFiles)).1.written
        = bytes ("HTTP/1.1 200\r\napplication/json; charset=utf-8\r\nContent-Length: 5\r\n"
            ++ "Connection: close\r\n\r\n[1,2]") ∧
      (handle (freshWorld (bytes "GET /transactions.xml HTTP/1.1\n") sampleFiles)).1.written
        = bytes ("HTTP/1.1 200\r\napplication/xml\r\nContent-Length: 4\r\n"
            ++ "Connection: close\r\n\r\n<t/>") :=
  ⟨(((handle_json_xml_response
        (freshWorld (bytes "GET /transactions.json HTTP/1.1\n") sampleFiles)
        (bytes "[1,2]") [] rfl).1 (by decide) rfl).1).trans (by decide),
    (((handle_json_xml_response
        (freshWorld (bytes "GET /transactions.xml HTTP/1.1\n") sampleFiles)
        (bytes "<t/>") [] rfl).2 (by decide) rfl).1).trans (by decide)⟩

/-! ## What the handlers amount to -/

theorem served_literal (first last body : Bytes) (lit1 lit2 : Bytes)
    (h1 : lit1 = bytes "HTTP/1.1 200\r\n" ++ first ++ bytes "\r\nContent-Length: ")
    (h2 : lit2 = bytes "\r\n" ++ last ++ bytes "\r\n\r\n") :
    bytes "HTTP/1.1 " ++ fmt_d 200 ++ CRLF
        ++ headerBlock [first, bytes "Content-Length: " ++ fmt_d (Int.ofNat body.length), last]
        ++ (if [first, bytes "Content-Length: " ++ fmt_d (Int.ofNat body.length), last] = []
              then [] else CRLF)
        ++ (some body).getD []
      = lit1 ++ fmt_d (Int.ofNat body.length) ++ lit2 ++ body := by
  rw [served_bytes, h1, h2]
  simp only [List.append_assoc]

theorem write404_eq_answer (w : World) : write404 w = connWrite w notFoundResponse := by
  have e : notFoundResponse
      = bytes "HTTP/1.1 " ++ fmt_d 404 ++ CRLF ++ headerBlock [bytes "Connection: close"]
          ++ CRLF := by decide
  unfold write404
  rw [writeResponse_eq, e]
  simp

theorem writeIndex_eq_answer (w : World) :
    writeIndex w = answer (bytes "/") w := by
  have hr : resourceFor (bytes "/") = some (bytes "web/template/index.html") := by decide
  unfold answer
  rw [hr]
  cases hf : w.files (bytes "web/template/index.html") with
  | error e => simp [writeIndex, includeIndexTemplate, ioutil_ReadFile, hf]
  | ok c =>
    simp only [writeIndex, includeIndexTemplate, ioutil_ReadFile, hf]
    rw [writeResponse_eq, ReplaceAll_twice_eq_substitute,
      served_literal (bytes "Connection: close") (bytes "Content-Type: text/html; charset=utf-8") (substitutePlaceholders c)
      (bytes "HTTP/1.1 200\r\nConnection: close\r\nContent-Length: ") (bytes "\r\nContent-Type: text/html; charset=utf-8\r\n\r\n") (by decide) (by decide)]
    simp [responseFor]

theorem writeTransactionsCsv_eq_answer (w : World) :
    writeTransactionsCsv w = answer (bytes "/transactions.csv") w := by
  have hr : resourceFor (bytes "/transactions.csv") = some (bytes "web/shared/transactions.csv") := by decide
  have hp0 : bytes "/transactions.csv" ≠ bytes "/" := by decide
  unfold answer
  rw [hr]
  cases hf : w.files (bytes "web/shared/transactions.csv") with
  | error e => simp [writeTransactionsCsv, ioutil_ReadFile, hf]
  | ok c =>
    simp only [writeTransactionsCsv, ioutil_ReadFile, hf]
    rw [writeResponse_eq, served_literal (bytes "Content-Type: text/csv") (bytes "Connection: close") c
      (bytes "HTTP/1.1 200\r\nContent-Type: text/csv\r\nContent-Length: ") (bytes "\r\nConnection: close\r\n\r\n") (by decide) (by decide)]
    simp [responseFor, hp0]

theorem writeTransactionsJson_eq_answer (w : World) :
    writeTransactionsJson w = answer (bytes "/transactions.json") w := by
  have hr : resourceFor (bytes "/transactions.json") = some (bytes "web/shared/transactions.json") := by decide
  have hp0 : bytes "/transactions.json" ≠ bytes "/" := by decide
  have hp1 : bytes "/transactions.json" ≠ bytes "/transactions.csv" := by decide
  unfold answer
  rw [hr]
  cases hf : w.files (bytes "web/shared/transactions.json") with
  | error e => simp [writeTransactionsJson, ioutil_ReadFile, hf]
  | ok c =>
    simp only [writeTransactionsJson, ioutil_ReadFile, hf]
    rw [writeResponse_eq, served_literal (bytes "application/json; charset=utf-8") (bytes "Connection: close") c
      (bytes "HTTP/1.1 200\r\napplication/json; charset=utf-8\r\nContent-Length: ") (bytes "\r\nConnection: close\r\n\r\n") (by decide) (by decide)]
    simp [responseFor, hp0, hp1]

theorem writeTransactionsXml_eq_answer (w : World) :
    writeTransactionsXml w = answer (bytes "/transactions.xml") w := by
  have hr : resourceFor (bytes "/transactions.xml") = some (bytes "web/shared/transactions.xml") := by decide
  have hp0 : bytes "/transactions.xml" ≠ bytes "/" := by decide
  have hp1 : bytes "/transactions.xml" ≠ bytes "/transactions.csv" := by decide
  have hp2 : bytes "/transactions.xml" ≠ bytes "/transactions.json" := by decide
  unfold answer
  rw [hr]
  cases hf : w.files (bytes "web/shared/transactions.xml") with
  | error e => simp [writeTransactionsXml, ioutil_ReadFile, hf]
  | ok c =>
    simp only [writeTransactionsXml, ioutil_ReadFile, hf]
    rw [writeResponse_eq, served_literal (bytes "application/xml") (bytes "Connection: close") c
      (bytes "HTTP/1.1 200\r\napplication/xml\r\nContent-Length: ") (bytes "\r\nConnection: close\r\n\r\n") (by decide) (by decide)]
    simp [responseFor, hp0, hp1, hp2]

/-- The `switch` of `handle` does what the wire protocol says for the path. -/
theorem dispatch_eq_answer (path : Bytes) (w : World) : dispatch path w = answer path w := by
  unfold dispatch
  split
  · rename_i h; rw [h, writeIndex_eq_answer]
  · split
    · rename_i h; rw [h, writeTransactionsCsv_eq_answer]
    · split
      · rename_i h; rw [h, writeTransactionsJson_eq_answer]
      · split
        · rename_i h; rw [h, writeTransactionsXml_eq_answer]
        · rename_i h1 h2 h3 h4
          rw [write404_eq_answer]
          simp [answer, resourceFor, h1, h2, h3, h4]

/-! ## What `handle` amounts to -/

theorem firstLine_none (d : UInt8) (s : Bytes) (h : d ∉ s) : firstLine d s = none := by
  induction s with
  | nil => rfl
  | cons c cs ih =>
    have hc : c ≠ d := fun e => h (by simp [e])
    have hcs : d ∉ cs := fun e => h (by simp [e])
    simp [firstLine, hc, ih hcs]

theorem firstLine_some (d : UInt8) :
    ∀ (s line : Bytes), firstLine d s = some line →
      ∃ l0 rest, line = l0 ++ [d] ∧ d ∉ l0 ∧ s = l0 ++ d :: rest := by
  intro s
  induction s with
  | nil => intro line h; simp [firstLine] at h
  | cons c cs ih =>
    intro line h
    by_cases hc : c = d
    · subst hc
      simp only [firstLine, if_true, Option.some.injEq] at h
      exact ⟨[], cs, by simp [← h], by simp, by simp⟩
    · simp only [firstLine, hc, if_false] at h
      cases hfl : firstLine d cs with
      | none => simp [hfl] at h
      | some l =>
        simp only [hfl, Option.some.injEq] at h
        obtain ⟨l0, rest, h1, h2, h3⟩ := ih l hfl
        refine ⟨c :: l0, rest, by simp [← h, h1], ?_, by simp [h3]⟩
        simp only [List.mem_cons, not_or]
        exact ⟨fun e => hc e.symm, h2⟩

/-- All the ways through the body of `handle`: no line feed on the input, a
line with a number of tokens other than three, or a line whose path is
answered. -/
theorem handleBody_eq (w : World) :
    handleBody w =
      match firstLine delim w.input with
      | none =>
        (if w.readEnd ≠ GoError.EOF then w
          else logMsg w (bytes "received: " ++ w.input ++ bytes "\n"), some w.readEnd)
      | some line =>
        if (strings_Split line SP).length ≠ 3 then
          (logMsg w (bytes "received: " ++ line ++ bytes "\n"),
            some (GoError.New (bytes "invalid request line " ++ line)))
        else
          answer ((strings_Split line SP).getD 1 [])
            (logMsg w (bytes "received: " ++ line ++ bytes "\n")) := by
  unfold handleBody bufio_ReadString
  cases hfl : firstLine delim w.input with
  | none =>
    simp only
    split <;> rfl
  | some line =>
    simp only
    by_cases hlen : (strings_Split line SP).length ≠ 3
    · simp only [getPath]
      rw [if_pos hlen, if_pos hlen]
    · simp only [getPath]
      rw [if_neg hlen, if_neg hlen]
      simp only
      rw [dispatch_eq_answer]
      cases answer ((strings_Split line SP).getD 1 [])
        (logMsg w (bytes "received: " ++ line ++ bytes "\n")) with
      | mk w2 e => cases e <;> rfl

theorem connWrite_frame (w : World) (p : Bytes) :
    (connWrite w p).1.closed = w.closed ∧ (connWrite w p).1.files = w.files ∧
      (connWrite w p).1.fsReads = w.fsReads := by
  unfold connWrite
  cases w.budget with
  | none => exact ⟨rfl, rfl, rfl⟩
  | some k =>
    simp only
    split <;> exact ⟨rfl, rfl, rfl⟩

theorem answer_frame (path : Bytes) (w : World) :
    (answer path w).1.closed = w.closed ∧ (answer path w).1.files = w.files := by
  unfold answer
  cases resourceFor path with
  | none => exact ⟨(connWrite_frame w _).1, (connWrite_frame w _).2.1⟩
  | some name =>
    simp only
    cases w.files name with
    | error e => exact ⟨rfl, rfl⟩
    | ok c => exact ⟨(connWrite_frame _ _).1, (connWrite_frame _ _).2.1⟩

theorem handleBody_frame (w : World) :
    (handleBody w).1.closed = w.closed ∧ (handleBody w).1.files = w.files := by
  rw [handleBody_eq]
  cases firstLine delim w.input with
  | none =>
    simp only
    split <;> exact ⟨rfl, rfl⟩
  | some line =>
    simp only
    split
    · exact ⟨rfl, rfl⟩
    · exact answer_frame _ _

theorem handle_closed (w : World) : (handle w).1.closed = w.closed + 1 := by
  unfold handle
  simp only [connClose_closed, (handleBody_frame w).1]

theorem connClose_files (w : World) : (connClose w).files = w.files := by
  unfold connClose
  cases h : w.closeErr <;> simp [h, logMsg]

theorem handle_files (w : World) : (handle w).1.files = w.files := by
  unfold handle
  simp only [connClose_files, (handleBody_frame w).2]

theorem answer_read_failure (path name : Bytes) (w : World) (e : GoError)
    (hr : resourceFor path = some name) (hf : w.files name = Except.error e) :
    answer path w = ({ w with fsReads := w.fsReads ++ [name] }, some e) := by
  unfold answer
  rw [hr]
  simp only [hf]

/-! ## Failures: no response, and the connection closed -/

/-- C11: when the first line of the input has a number of space-separated
tokens other than three, `handle` writes no byte to the connection, returns the
parse error of `getPath` for that line, reads no file and closes the
connection. -/
theorem handle_bad_line_no_response (w : World) (l0 rest : Bytes) (h : delim ∉ l0)
    (hin : w.input = l0 ++ delim :: rest)
    (hn : (strings_Split (l0 ++ [delim]) SP).length ≠ 3) :
    (handle w).1.written = w.written ∧
      (handle w).2 = some (GoError.New (bytes "invalid request line " ++ (l0 ++ [delim]))) ∧
      (handle w).1.fsReads = w.fsReads ∧
      (handle w).1.closed = w.closed + 1 := by
  refine ⟨?_, ?_, ?_, handle_closed w⟩
  all_goals
    unfold handle
    rw [handleBody_eq, hin, firstLine_append_delim delim l0 rest h]
    simp [connClose_written, connClose_fsReads, hn, logMsg]

theorem handle_bad_line_no_response_witness :
    (handle (freshWorld (bytes "BADLINE\n") sampleFiles)).1.written = [] ∧
      (handle (freshWorld (bytes "BADLINE\n") sampleFiles)).2
        = some (GoError.New (bytes "invalid request line BADLINE\n")) ∧
      (handle (freshWorld (bytes "BADLINE\n") sampleFiles)).1.fsReads = [] ∧
      (handle (freshWorld (bytes "BADLINE\n") sampleFiles)).1.closed = 1 :=
  handle_bad_line_no_response (freshWorld (bytes "BADLINE\n") sampleFiles)
    (bytes "BADLINE") [] (by decide) (by decide) (by decide)

/-- C12: when the input ends without a line feed, `handle` returns the error
that ended the stream, `io.EOF` for a stream that just ends, which is no parse
error; it writes no byte, reads no file, logs the partial data and closes the
connection, whatever the partial data are. -/
theorem handle_no_line_feed (w : World) (h : delim ∉ w.input) :
    (handle w).2 = some w.readEnd ∧
      (handle w).1.written = w.written ∧
      (handle w).1.fsReads = w.fsReads ∧
      (handle w).1.closed = w.closed + 1 ∧
      (w.readEnd = GoError.EOF →
        (handle w).2 = some GoError.EOF ∧
          (∀ line, (handle w).2 ≠ (getPath line).2) ∧
          (connClose (logMsg w (bytes "received: " ++ w.input ++ bytes "\n"))) = (handle w).1)
      := by
  have hb : handleBody w =
      (if w.readEnd ≠ GoError.EOF then w
        else logMsg w (bytes "received: " ++ w.input ++ bytes "\n"), some w.readEnd) := by
    rw [handleBody_eq, firstLine_none delim w.input h]
  have h2 : (handle w).2 = some w.readEnd := by
    unfold handle
    rw [hb]
  refine ⟨h2, ?_, ?_, handle_closed w, ?_⟩
  · unfold handle
    rw [hb]
    simp only [connClose_written]
    split <;> rfl
  · unfold handle
    rw [hb]
    simp only [connClose_fsReads]
    split <;> rfl
  · intro he
    refine ⟨by rw [h2, he], ?_, ?_⟩
    · intro line
      rw [h2, he]
      unfold getPath
      simp only
      split <;> simp
    · unfold handle
      rw [hb]
      simp [he]

theorem handle_no_line_feed_witness :
    ((handle (freshWorld (bytes "GET / HTTP/1.1") sampleFiles)).2 = some GoError.EOF ∧
        (handle (freshWorld (bytes "GET / HTTP/1.1") sampleFiles)).1.written = [] ∧
        (handle (freshWorld (bytes "GET / HTTP/1.1") sampleFiles)).1.fsReads = [] ∧
        (handle (freshWorld (bytes "GET / HTTP/1.1") sampleFiles)).1.closed = 1) ∧
      ((handle (freshWorld [] sampleFiles)).2 = some GoError.EOF ∧
        (handle (freshWorld [] sampleFiles)).1.written = []) :=
  ⟨⟨(handle_no_line_feed (freshWorld (bytes "GET / HTTP/1.1") sampleFiles) (by decide)).1,
      (handle_no_line_feed (freshWorld (bytes "GET / HTTP/1.1") sampleFiles) (by decide)).2.1,
      (handle_no_line_feed (freshWorld (bytes "GET / HTTP/1.1") sampleFiles) (by decide)).2.2.1,
      (handle_no_line_feed (freshWorld (bytes "GET / HTTP/1.1") sampleFiles)
        (by decide)).2.2.2.1⟩,
    ⟨(handle_no_line_feed (freshWorld [] sampleFiles) (by decide)).1,
      (handle_no_line_feed (freshWorld [] sampleFiles) (by decide)).2.1⟩⟩

/-- C13: whatever the input, the files and the connection do, a run of `handle`
closes the connection exactly once: the count of closes goes up by one, so a
connection handed over open and never closed ends with the count 1. -/
theorem handle_closes_exactly_once (w : World) :
    (handle w).1.closed = w.closed + 1 ∧ (w.closed = 0 → (handle w).1.closed = 1) := by
  refine ⟨handle_closed w, fun h0 => ?_⟩
  rw [handle_closed w, h0]

theorem handle_closes_exactly_once_witness :
    ((handle (freshWorld (bytes "GET / HTTP/1.1\n") sampleFiles)).2 = none ∧
        (handle (freshWorld (bytes "GET / HTTP/1.1\n") sampleFiles)).1.closed = 1) ∧
      ((handle (freshWorld (bytes "GET /") sampleFiles)).2 = some GoError.EOF ∧
        (handle (freshWorld (bytes "GET /") sampleFiles)).1.closed = 1) ∧
      ((handle { freshWorld (bytes "GET /") sampleFiles with
            readEnd := GoError.sys (bytes "connection reset by peer") }).2
          = some (GoError.sys (bytes "connection reset by peer")) ∧
        (handle { freshWorld (bytes "GET /") sampleFiles with
            readEnd := GoError.sys (bytes "connection reset by peer") }).1.closed = 1) ∧
      ((handle (freshWorld (bytes "BADLINE\n") sampleFiles)).2
          = some (GoError.New (bytes "invalid request line BADLINE\n")) ∧
        (handle (freshWorld (bytes "BADLINE\n") sampleFiles)).1.closed = 1) ∧
      ((handle (freshWorld (bytes "GET / HTTP/1.1\n") noFiles)).2
          = some (GoError.sys (bytes "no such file or directory")) ∧
        (handle (freshWorld (bytes "GET / HTTP/1.1\n") noFiles)).1.closed = 1) ∧
      ((handle { freshWorld (bytes "GET /x HTTP/1.1\n") noFiles with budget := some 5 }).2
          = some (GoError.sys (bytes "broken pipe")) ∧
        (handle { freshWorld (bytes "GET /x HTTP/1.1\n") noFiles with
            budget := some 5 }).1.closed = 1) :=
  ⟨⟨by decide, (handle_closes_exactly_once _).2 rfl⟩,
    ⟨by decide, (handle_closes_exactly_once _).2 rfl⟩,
    ⟨by decide, (handle_closes_exactly_once _).2 rfl⟩,
    ⟨by decide, (handle_closes_exactly_once _).2 rfl⟩,
    ⟨by decide, (handle_closes_exactly_once _).2 rfl⟩,
    ⟨by decide, (handle_closes_exactly_once _).2 rfl⟩⟩

/-- C14: for each of the four handlers that serve a resource, when the read of
the resource fails the handler returns the error of the read and the connection
is left as it was: no byte written, none of its readiness to take bytes used
up.  The read comes before `writeResponse`. -/
theorem handler_read_failure_writes_nothing (w : World) (e : GoError) :
    (w.files (bytes "web/template/index.html") = Except.error e →
        (writeIndex w).2 = some e ∧ (writeIndex w).1.written = w.written ∧
          (writeIndex w).1.budget = w.budget) ∧
      (w.files (bytes "web/shared/transactions.csv") = Except.error e →
        (writeTransactionsCsv w).2 = some e ∧ (writeTransactionsCsv w).1.written = w.written ∧
          (writeTransactionsCsv w).1.budget = w.budget) ∧
      (w.files (bytes "web/shared/transactions.json") = Except.error e →
        (writeTransactionsJson w).2 = some e ∧
          (writeTransactionsJson w).1.written = w.written ∧
          (writeTransactionsJson w).1.budget = w.budget) ∧
      (w.files (bytes "web/shared/transactions.xml") = Except.error e →
        (writeTransactionsXml w).2 = some e ∧ (writeTransactionsXml w).1.written = w.written ∧
          (writeTransactionsXml w).1.budget = w.budget) := by
  refine ⟨fun hf => ?_, fun hf => ?_, fun hf => ?_, fun hf => ?_⟩
  · rw [writeIndex_eq_answer, answer_read_failure _ _ w e (by decide) hf]
    exact ⟨rfl, rfl, rfl⟩
  · rw [writeTransactionsCsv_eq_answer, answer_read_failure _ _ w e (by decide) hf]
    exact ⟨rfl, rfl, rfl⟩
  · rw [writeTransactionsJson_eq_answer, answer_read_failure _ _ w e (by decide) hf]
    exact ⟨rfl, rfl, rfl⟩
  · rw [writeTransactionsXml_eq_answer, answer_read_failure _ _ w e (by decide) hf]
    exact ⟨rfl, rfl, rfl⟩

theorem handler_read_failure_writes_nothing_witness :
    ((writeIndex (freshWorld [] noFiles)).2
          = some (GoError.sys (bytes "no such file or directory")) ∧
        (writeIndex (freshWorld [] noFiles)).1.written = []) ∧
      ((writeTransactionsCsv (freshWorld [] noFiles)).2
          = some (GoError.sys (bytes "no such file or directory")) ∧
        (writeTransactionsCsv (freshWorld [] noFiles)).1.written = []) ∧
      ((writeTransactionsJson (freshWorld [] noFiles)).2
          = some (GoError.sys (bytes "no such file or directory")) ∧
        (writeTransactionsJson (freshWorld [] noFiles)).1.written = []) ∧
      ((writeTransactionsXml (freshWorld [] noFiles)).2
          = some (GoError.sys (bytes "no such file or directory")) ∧
        (writeTransactionsXml (freshWorld [] noFiles)).1.written = []) :=
  ⟨⟨((handler_read_failure_writes_nothing (freshWorld [] noFiles) _).1 rfl).1,
      ((handler_read_failure_writes_nothing (freshWorld [] noFiles) _).1 rfl).2.1⟩,
    ⟨((handler_read_failure_writes_nothing (freshWorld [] noFiles) _).2.1 rfl).1,
      ((handler_read_failure_writes_nothing (freshWorld [] noFiles) _).2.1 rfl).2.1⟩,
    ⟨((handler_read_failure_writes_nothing (freshWorld [] noFiles) _).2.2.1 rfl).1,
      ((handler_read_failure_writes_nothing (freshWorld [] noFiles) _).2.2.1 rfl).2.1⟩,
    ⟨((handler_read_failure_writes_nothing (freshWorld [] noFiles) _).2.2.2 rfl).1,
      ((handler_read_failure_writes_nothing (freshWorld [] noFiles) _).2.2.2 rfl).2.1⟩⟩

/-! ## What the response depends on -/

theorem connWrite_congr (w1 w2 : World) (p : Bytes) (hs : w1.sameService w2) :
    (connWrite w1 p).1.sameService (connWrite w2 p).1 ∧
      (connWrite w1 p).2 = (connWrite w2 p).2 := by
  obtain ⟨hf, hwr, hb, hwe⟩ := hs
  cases hb2 : w2.budget with
  | none =>
    have hb1 : w1.budget = none := hb.trans hb2
    simp [connWrite, World.sameService, hb1, hb2, hf, hwr, hwe]
  | some k =>
    have hb1 : w1.budget = some k := hb.trans hb2
    by_cases hk : p.length ≤ k
    · simp [connWrite, World.sameService, hb1, hb2, hk, hf, hwr, hwe]
    · simp [connWrite, World.sameService, hb1, hb2, hk, hf, hwr, hwe]

theorem answer_congr (path : Bytes) (w1 w2 : World) (hs : w1.sameService w2) :
    (answer path w1).1.sameService (answer path w2).1 ∧
      (answer path w1).2 = (answer path w2).2 := by
  unfold answer
  cases resourceFor path with
  | none => exact connWrite_congr w1 w2 _ hs
  | some name =>
    simp only
    cases hf2 : w2.files name with
    | error e =>
      have hf1 : w1.files name = Except.error e := by rw [hs.1]; exact hf2
      simp only [hf1]
      exact ⟨⟨hs.1, hs.2.1, hs.2.2.1, hs.2.2.2⟩, trivial⟩
    | ok c =>
      have hf1 : w1.files name = Except.ok c := by rw [hs.1]; exact hf2
      simp only [hf1]
      exact connWrite_congr _ _ _ ⟨hs.1, hs.2.1, hs.2.2.1, hs.2.2.2⟩

theorem logMsg_sameService (w1 w2 : World) (m1 m2 : Bytes) (hs : w1.sameService w2) :
    (logMsg w1 m1).sameService (logMsg w2 m2) :=
  ⟨hs.1, hs.2.1, hs.2.2.1, hs.2.2.2⟩

theorem connClose_sameService (w1 w2 : World) (hs : w1.sameService w2) :
    (connClose w1).sameService (connClose w2) := by
  unfold connClose
  cases h1 : w1.closeErr <;> cases h2 : w2.closeErr <;>
    simp only [h1, h2] <;> exact ⟨hs.1, hs.2.1, hs.2.2.1, hs.2.2.2⟩

/-- With a first line whose path parses, `handle` is the answer to the path
followed by the close. -/
theorem handle_eq_answer (w : World) (l0 rest path : Bytes) (h : delim ∉ l0)
    (hin : w.input = l0 ++ delim :: rest)
    (hpath : getPath (l0 ++ [delim]) = (path, none)) :
    handle w =
      (connClose
          (answer path (logMsg w (bytes "received: " ++ (l0 ++ [delim]) ++ bytes "\n"))).1,
        (answer path (logMsg w (bytes "received: " ++ (l0 ++ [delim]) ++ bytes "\n"))).2) := by
  rw [handle_of_input w l0 rest path h hin hpath, dispatch_eq_answer]

/-- Two runs of `handle` on worlds with the same service whose inputs have the
same first line (or both none, and then end the same way) write the same bytes
and return the same error. -/
theorem handle_congr (w1 w2 : World)
    (hl : firstLine delim w1.input = firstLine delim w2.input)
    (hre : firstLine delim w2.input = none → w1.readEnd = w2.readEnd)
    (hs : w1.sameService w2) :
    (handle w1).1.sameService (handle w2).1 ∧ (handle w1).2 = (handle w2).2 := by
  unfold handle
  rw [handleBody_eq w1, handleBody_eq w2, hl]
  cases hfl : firstLine delim w2.input with
  | none =>
    simp only
    rw [hre hfl]
    refine ⟨connClose_sameService _ _ ?_, rfl⟩
    split
    · exact hs
    · exact ⟨hs.1, hs.2.1, hs.2.2.1, hs.2.2.2⟩
  | some line =>
    simp only
    split
    · exact ⟨connClose_sameService _ _ (logMsg_sameService _ _ _ _ hs), rfl⟩
    · have hc := answer_congr ((strings_Split line SP).getD 1 []) _ _
        (logMsg_sameService w1 w2 (bytes "received: " ++ line ++ bytes "\n")
          (bytes "received: " ++ line ++ bytes "\n") hs)
      exact ⟨connClose_sameService _ _ hc.1, hc.2⟩

/-- C15: two request lines with exactly three tokens each and the same middle
token get the same response: whatever their first and last tokens are, and
whatever follows the lines, on worlds with the same files and the same
connection state `handle` writes the same bytes and returns the same error. -/
theorem response_depends_only_on_path (w1 w2 : World)
    (m1 v1 rest1 m2 v2 rest2 p : Bytes) (hs : w1.sameService w2)
    (hin1 : w1.input = m1 ++ SP :: (p ++ SP :: (v1 ++ delim :: rest1)))
    (hin2 : w2.input = m2 ++ SP :: (p ++ SP :: (v2 ++ delim :: rest2)))
    (hm1 : SP ∉ m1 ∧ delim ∉ m1) (hv1 : SP ∉ v1 ∧ delim ∉ v1)
    (hm2 : SP ∉ m2 ∧ delim ∉ m2) (hv2 : SP ∉ v2 ∧ delim ∉ v2)
    (hp : SP ∉ p ∧ delim ∉ p) :
    (handle w1).1.written = (handle w2).1.written ∧ (handle w1).2 = (handle w2).2 := by
  have hsd : SP ≠ delim := by decide
  have key : ∀ (w : World) (m v rest : Bytes),
      w.input = m ++ SP :: (p ++ SP :: (v ++ delim :: rest)) →
      (SP ∉ m ∧ delim ∉ m) → (SP ∉ v ∧ delim ∉ v) →
      handle w =
        (connClose (answer p (logMsg w
            (bytes "received: " ++ ((m ++ SP :: (p ++ SP :: v)) ++ [delim]) ++ bytes "\n"))).1,
          (answer p (logMsg w
            (bytes "received: " ++ ((m ++ SP :: (p ++ SP :: v)) ++ [delim])
              ++ bytes "\n"))).2) := by
    intro w m v rest hin hm hv
    have hl0 : delim ∉ m ++ SP :: (p ++ SP :: v) := by
      simp only [List.mem_append, List.mem_cons, not_or]
      exact ⟨hm.2, fun e => hsd e.symm, hp.2, fun e => hsd e.symm, hv.2⟩
    have hv2 : SP ∉ v ++ [delim] := by
      simp only [List.mem_append, List.mem_singleton, not_or]
      exact ⟨hv.1, hsd⟩
    have hline : (m ++ SP :: (p ++ SP :: v)) ++ [delim]
        = m ++ SP :: (p ++ SP :: (v ++ [delim])) := by simp
    have hpath : getPath ((m ++ SP :: (p ++ SP :: v)) ++ [delim]) = (p, none) := by
      rw [hline]
      exact getPath_of_three m p (v ++ [delim]) hm.1 hp.1 hv2
    have hin2 : w.input = (m ++ SP :: (p ++ SP :: v)) ++ delim :: rest := by
      rw [hin]; simp
    exact handle_eq_answer w _ rest p hl0 hin2 hpath
  rw [key w1 m1 v1 rest1 hin1 hm1 hv1, key w2 m2 v2 rest2 hin2 hm2 hv2]
  have hc := answer_congr p _ _
    (logMsg_sameService w1 w2
      (bytes "received: " ++ ((m1 ++ SP :: (p ++ SP :: v1)) ++ [delim]) ++ bytes "\n")
      (bytes "received: " ++ ((m2 ++ SP :: (p ++ SP :: v2)) ++ [delim]) ++ bytes "\n") hs)
  exact ⟨by simp only [connClose_written]; exact hc.1.2.1, hc.2⟩

theorem response_depends_only_on_path_witness :
    (handle (freshWorld (bytes "GET /transactions.csv HTTP/1.1\n") sampleFiles)).1.written
        = (handle (freshWorld (bytes "POST /transactions.csv HTTP/1.0\r\nHost: x\r\n")
            sampleFiles)).1.written ∧
      (handle (freshWorld (bytes "GET /transactions.csv HTTP/1.1\n") sampleFiles)).2
        = (handle (freshWorld (bytes "POST /transactions.csv HTTP/1.0\r\nHost: x\r\n")
            sampleFiles)).2 :=
  response_depends_only_on_path
    (freshWorld (bytes "GET /transactions.csv HTTP/1.1\n") sampleFiles)
    (freshWorld (bytes "POST /transactions.csv HTTP/1.0\r\nHost: x\r\n") sampleFiles)
    (bytes "GET") (bytes "HTTP/1.1") [] (bytes "POST") (bytes "HTTP/1.0\r")
    (bytes "Host: x\r\n") (bytes "/transactions.csv") ⟨rfl, rfl, rfl, rfl⟩
    (by decide) (by decide) (by decide) (by decide) (by decide) (by decide) (by decide)

/-- C16: only the first line of the input counts.  On worlds with the same
files and the same connection state whose inputs agree up to and including
their first line feed, `handle` writes the same bytes and returns the same
error, whatever bytes follow the line feed and however the streams end. -/
theorem only_first_line_counts (w1 w2 : World) (l0 rest1 rest2 : Bytes)
    (hs : w1.sameService w2) (h : delim ∉ l0)
    (hin1 : w1.input = l0 ++ delim :: rest1) (hin2 : w2.input = l0 ++ delim :: rest2) :
    (handle w1).1.written = (handle w2).1.written ∧ (handle w1).2 = (handle w2).2 := by
  have h1 : firstLine delim w1.input = some (l0 ++ [delim]) := by
    rw [hin1, firstLine_append_delim delim l0 rest1 h]
  have h2 : firstLine delim w2.input = some (l0 ++ [delim]) := by
    rw [hin2, firstLine_append_delim delim l0 rest2 h]
  have hc := handle_congr w1 w2 (by rw [h1, h2]) (by rw [h2]; intro hn; cases hn) hs
  exact ⟨hc.1.2.1, hc.2⟩

theorem only_first_line_counts_witness :
    (handle (freshWorld (bytes "GET / HTTP/1.1\n") sampleFiles)).1.written
        = (handle (freshWorld (bytes "GET / HTTP/1.1\nHost: x\r\n\r\nGET /nope HTTP/1.1\n")
            sampleFiles)).1.written ∧
      (handle (freshWorld (bytes "GET / HTTP/1.1\n") sampleFiles)).2
        = (handle (freshWorld (bytes "GET / HTTP/1.1\nHost: x\r\n\r\nGET /nope HTTP/1.1\n")
            sampleFiles)).2 :=
  only_first_line_counts
    (freshWorld (bytes "GET / HTTP/1.1\n") sampleFiles)
    (freshWorld (bytes "GET / HTTP/1.1\nHost: x\r\n\r\nGET /nope HTTP/1.1\n") sampleFiles)
    (bytes "GET / HTTP/1.1") [] (bytes "Host: x\r\n\r\nGET /nope HTTP/1.1\n")
    ⟨rfl, rfl, rfl, rfl⟩ (by decide) (by decide) (by decide)

/-- C17: handling is deterministic.  Two runs of `handle` on the same input
stream, against the same files and the same connection state, write the same
bytes and return the same error, whatever else differs between them (the log,
the counts of reads and closes); and a run leaves the files as they were, so a
second run finds the resource state of the first. -/
theorem handle_deterministic (w1 w2 : World) (h : w1.sameExchange w2) :
    (handle w1).1.written = (handle w2).1.written ∧ (handle w1).2 = (handle w2).2 ∧
      (handle w1).1.files = w1.files := by
  have hc := handle_congr w1 w2 (by rw [h.1]) (fun _ => h.2.1) h.2.2
  exact ⟨hc.1.2.1, hc.2, handle_files w1⟩

theorem handle_deterministic_witness :
    (handle (freshWorld (bytes "GET / HTTP/1.1\n") sampleFiles)).1.written
        = (handle { (handle (freshWorld (bytes "GET / HTTP/1.1\n") sampleFiles)).1 with
            written := [], closed := 0 }).1.written ∧
      (handle (freshWorld (bytes "GET / HTTP/1.1\n") sampleFiles)).2
        = (handle { (handle (freshWorld (bytes "GET / HTTP/1.1\n") sampleFiles)).1 with
            written := [], closed := 0 }).2 :=
  ⟨(handle_deterministic (freshWorld (bytes "GET / HTTP/1.1\n") sampleFiles)
      { (handle (freshWorld (bytes "GET / HTTP/1.1\n") sampleFiles)).1 with
        written := [], closed := 0 } ⟨rfl, rfl, rfl, rfl, rfl, rfl⟩).1,
    (handle_deterministic (freshWorld (bytes "GET / HTTP/1.1\n") sampleFiles)
      { (handle (freshWorld (bytes "GET / HTTP/1.1\n") sampleFiles)).1 with
        written := [], closed := 0 } ⟨rfl, rfl, rfl, rfl, rfl, rfl⟩).2.1⟩

/-! ## The parser, by the number of spaces -/

theorem strings_Split_parts (sep : UInt8) :
    ∀ (s : Bytes) (p : Bytes), p ∈ strings_Split s sep → sep ∉ p := by
  intro s
  induction s with
  | nil => intro p hp; simp [strings_Split] at hp; simp [hp]
  | cons c cs ih =>
    intro p hp
    unfold strings_Split at hp
    by_cases hc : c = sep
    · simp only [hc, if_true, List.mem_cons] at hp
      rcases hp with hp | hp
      · simp [hp]
      · exact ih p hp
    · simp only [hc, if_false] at hp
      cases hs : strings_Split cs sep with
      | nil => exact absurd hs (strings_Split_ne_nil cs sep)
      | cons q qs =>
        rw [hs] at hp ih
        simp only [List.mem_cons] at hp
        rcases hp with hp | hp
        · subst hp
          simp only [List.mem_cons, not_or]
          exact ⟨fun e => hc e.symm, ih q (by simp)⟩
        · exact ih p (by simp [hp])

theorem strings_Split_three_inv (sep : UInt8) :
    ∀ (s m p v : Bytes), strings_Split s sep = [m, p, v] → s = m ++ sep :: (p ++ sep :: v) := by
  have two : ∀ (s p v : Bytes), strings_Split s sep = [p, v] → s = p ++ sep :: v := by
    intro s
    induction s with
    | nil => intro p v h; simp [strings_Split] at h
    | cons c cs ih =>
      intro p v h
      unfold strings_Split at h
      by_cases hc : c = sep
      · simp only [hc, if_true, List.cons.injEq] at h
        have hcs : sep ∉ cs := by
          intro hmem
          have := strings_Split_length cs sep
          rw [h.2] at this
          have hpos : 0 < cs.count sep := List.count_pos_iff.2 hmem
          simp at this
          omega
        have := strings_Split_no_sep cs sep hcs
        rw [h.2] at this
        simp only [List.cons.injEq, and_true] at this
        rw [← h.1, hc, this]
        simp
      · simp only [hc, if_false] at h
        cases hs : strings_Split cs sep with
        | nil => exact absurd hs (strings_Split_ne_nil cs sep)
        | cons q qs =>
          rw [hs] at h
          simp only [List.cons.injEq] at h
          obtain ⟨h1, h2⟩ := h
          subst h2
          rw [ih q v hs, ← h1]
          simp
  intro s
  induction s with
  | nil => intro m p v h; simp [strings_Split] at h
  | cons c cs ih =>
    intro m p v h
    unfold strings_Split at h
    by_cases hc : c = sep
    · simp only [hc, if_true, List.cons.injEq] at h
      rw [← h.1, hc, two cs p v h.2]
      simp
    · simp only [hc, if_false] at h
      cases hs : strings_Split cs sep with
      | nil => exact absurd hs (strings_Split_ne_nil cs sep)
      | cons q qs =>
        rw [hs] at h
        simp only [List.cons.injEq] at h
        obtain ⟨h1, h2⟩ := h
        subst h2
        rw [ih q p v hs, ← h1]
        simp

theorem length_three (l : List Bytes) (h : l.length = 3) : ∃ m p v, l = [m, p, v] := by
  match l, h with
  | [m, p, v], _ => exact ⟨m, p, v, rfl⟩

/-- C18: `getPath` succeeds on a line exactly when the line has two space
bytes; the line is then `m`, a space, `p`, a space, `v` with no space in `m`, `p`
and `v`, and the path returned is `p`, the bytes between the two spaces, which
may be none.  So `GET  / HTTP/1.1` with its doubled space is rejected and
`GET  HTTP/1.1` is accepted with the empty path. -/
theorem getPath_succeeds_iff_two_spaces (line : Bytes) :
    ((getPath line).2 = none ↔ line.count SP = 2) ∧
      (line.count SP = 2 →
        ∃ m p v, SP ∉ m ∧ SP ∉ p ∧ SP ∉ v ∧ line = m ++ SP :: (p ++ SP :: v) ∧
          getPath line = (p, none)) ∧
      getPath (bytes "GET  / HTTP/1.1")
        = ([], some (GoError.New (bytes "invalid request line GET  / HTTP/1.1"))) ∧
      getPath (bytes "GET  HTTP/1.1") = ([], none) := by
  have hlen := strings_Split_length line SP
  refine ⟨?_, ?_, by decide, by decide⟩
  · unfold getPath
    simp only
    by_cases h : (strings_Split line SP).length ≠ 3
    · rw [if_pos h]
      simp only [reduceCtorEq, false_iff]
      omega
    · rw [if_neg h]
      simp only [true_iff]
      omega
  · intro hc
    have h3 : (strings_Split line SP).length = 3 := by omega
    obtain ⟨m, p, v, hs⟩ := length_three _ h3
    have hparts := strings_Split_parts SP line
    rw [hs] at hparts
    refine ⟨m, p, v, hparts m (by simp), hparts p (by simp), hparts v (by simp),
      strings_Split_three_inv SP line m p v hs, ?_⟩
    simp [getPath, hs]

theorem getPath_succeeds_iff_two_spaces_witness :
    (bytes "GET /a HTTP/1.1\n").count SP = 2 ∧
      (getPath (bytes "GET /a HTTP/1.1\n")).2 = none :=
  ⟨by decide, ((getPath_succeeds_iff_two_spaces (bytes "GET /a HTTP/1.1\n")).1).2 (by decide)⟩

/-! ## No placeholder is left in the index body -/

theorem substitutePlaceholders_nil : substitutePlaceholders [] = [] := rfl

/-- A word without the first bytes of the two replacement texts that starts the
substituted template also starts the template. -/
theorem isPrefixOf_of_substitute (w : Bytes) (hw : ∀ a ∈ w, a ≠ 77 ∧ a ≠ 49) :
    ∀ x : Bytes, w.isPrefixOf (substitutePlaceholders x) = true → w.isPrefixOf x = true := by
  have hM : bytes "Michael" = 77 :: bytes "ichael" := by decide
  have hV : bytes "1 000.50" = 49 :: bytes " 000.50" := by decide
  induction w with
  | nil => intro x _; simp
  | cons a w ih =>
    intro x hx
    have hne := hw a (by simp)
    cases x with
    | nil => simp [substitutePlaceholders_nil] at hx
    | cons d ds =>
      cases hu : (bytes "\x7busername\x7d").isPrefixOf (d :: ds) with
      | true =>
        obtain ⟨rest, hrest⟩ := (isPrefixOf_iff_append _ _).1 hu
        rw [hrest, substitute_username, hM] at hx
        simp [List.isPrefixOf, hne.1] at hx
      | false =>
        cases hb : (bytes "\x7bbalance\x7d").isPrefixOf (d :: ds) with
        | true =>
          obtain ⟨rest, hrest⟩ := (isPrefixOf_iff_append _ _).1 hb
          rw [hrest, substitute_balance, hV] at hx
          simp [List.isPrefixOf, hne.2] at hx
        | false =>
          rw [substitute_copy d ds hu hb] at hx
          simp only [List.isPrefixOf, Bool.and_eq_true, beq_iff_eq] at hx ⊢
          exact ⟨hx.1, ih (fun b hb => hw b (by simp [hb])) ds hx.2⟩

/-- A suffix of `lit ++ x` that is not a suffix of `x` starts with a byte of
`lit`. -/
theorem suffix_cases (lit x pre post : Bytes) (h : lit ++ x = pre ++ post) :
    (∃ c tl, c ∈ lit ∧ post = c :: tl) ∨ (∃ pre2, x = pre2 ++ post) := by
  rcases List.append_eq_append_iff.1 h with ⟨a, h1, h2⟩ | ⟨c, h1, h2⟩
  · exact Or.inr ⟨a, h2⟩
  · cases c with
    | nil => exact Or.inr ⟨[], by simpa using h2.symm⟩
    | cons c0 ctl =>
      refine Or.inl ⟨c0, ctl ++ x, ?_, h2⟩
      rw [h1]
      simp

theorem substitute_no_placeholder_aux : ∀ (k : Nat) (t : Bytes), t.length = k →
    ∀ pre post, substitutePlaceholders t = pre ++ post →
      (bytes "\x7busername\x7d").isPrefixOf post = false ∧
        (bytes "\x7bbalance\x7d").isPrefixOf post = false := by
  have hU : bytes "\x7busername\x7d" = 123 :: bytes "username\x7d" := by decide
  have hB : bytes "\x7bbalance\x7d" = 123 :: bytes "balance\x7d" := by decide
  have start : ∀ (c : UInt8) (tl : Bytes), c ≠ 123 →
      (bytes "\x7busername\x7d").isPrefixOf (c :: tl) = false ∧
        (bytes "\x7bbalance\x7d").isPrefixOf (c :: tl) = false := by
    intro c tl hc
    rw [hU, hB]
    exact ⟨isPrefixOf_head_ne _ _ _ _ hc, isPrefixOf_head_ne _ _ _ _ hc⟩
  intro k
  induction k using Nat.strong_induction_on with
  | _ k ih =>
    intro t hk pre post hsplit
    cases t with
    | nil =>
      rw [substitutePlaceholders_nil] at hsplit
      have hpost : post = [] := (List.append_eq_nil.1 hsplit.symm).2
      rw [hpost, hU, hB]
      exact ⟨rfl, rfl⟩
    | cons c cs =>
      cases hu : (bytes "\x7busername\x7d").isPrefixOf (c :: cs) with
      | true =>
        obtain ⟨rest, hrest⟩ := (isPrefixOf_iff_append _ _).1 hu
        rw [hrest, substitute_username] at hsplit
        rcases suffix_cases _ _ _ _ hsplit with ⟨c0, tl, hc0, hpost⟩ | ⟨pre2, hx⟩
        · rw [hpost]
          exact start c0 tl (by
            have : ∀ a ∈ bytes "Michael", a ≠ 123 := by decide
            exact this c0 hc0)
        · exact ih rest.length (by rw [← hk, hrest]; simp; decide) rest rfl pre2 post hx
      | false =>
        cases hb : (bytes "\x7bbalance\x7d").isPrefixOf (c :: cs) with
        | true =>
          obtain ⟨rest, hrest⟩ := (isPrefixOf_iff_append _ _).1 hb
          rw [hrest, substitute_balance] at hsplit
          rcases suffix_cases _ _ _ _ hsplit with ⟨c0, tl, hc0, hpost⟩ | ⟨pre2, hx⟩
          · rw [hpost]
            exact start c0 tl (by
              have : ∀ a ∈ bytes "1 000.50", a ≠ 123 := by decide
              exact this c0 hc0)
          · exact ih rest.length (by rw [← hk, hrest]; simp; decide) rest rfl pre2 post hx
        | false =>
          rw [substitute_copy c cs hu hb] at hsplit
          cases pre with
          | nil =>
            simp only [List.nil_append] at hsplit
            rw [← hsplit]
            constructor
            · cases h1 : (bytes "\x7busername\x7d").isPrefixOf
                (c :: substitutePlaceholders cs) with
              | false => rfl
              | true =>
                rw [hU] at h1 hu
                simp only [List.isPrefixOf, Bool.and_eq_true, beq_iff_eq] at h1
                have h2 := isPrefixOf_of_substitute (bytes "username\x7d") (by decide) cs h1.2
                simp [List.isPrefixOf, h1.1, h2] at hu
            · cases h1 : (bytes "\x7bbalance\x7d").isPrefixOf
                (c :: substitutePlaceholders cs) with
              | false => rfl
              | true =>
                rw [hB] at h1 hb
                simp only [List.isPrefixOf, Bool.and_eq_true, beq_iff_eq] at h1
                have h2 := isPrefixOf_of_substitute (bytes "balance\x7d") (by decide) cs h1.2
                simp [List.isPrefixOf, h1.1, h2] at hb
          | cons p0 pre2 =>
            simp only [List.cons_append, List.cons.injEq] at hsplit
            exact ih cs.length (by rw [← hk]; simp) cs rfl pre2 post hsplit.2

/-- The substituted template holds neither placeholder anywhere. -/
theorem substitute_no_placeholder (t pre post : Bytes) :
    substitutePlaceholders t ≠ pre ++ bytes "\x7busername\x7d" ++ post ∧
      substitutePlaceholders t ≠ pre ++ bytes "\x7bbalance\x7d" ++ post := by
  constructor
  · intro h
    have := (substitute_no_placeholder_aux t.length t rfl pre
      (bytes "\x7busername\x7d" ++ post) (by rw [h, List.append_assoc])).1
    rw [(isPrefixOf_iff_append _ _).2 ⟨post, rfl⟩] at this
    cases this
  · intro h
    have := (substitute_no_placeholder_aux t.length t rfl pre
      (bytes "\x7bbalance\x7d" ++ post) (by rw [h, List.append_assoc])).2
    rw [(isPrefixOf_iff_append _ _).2 ⟨post, rfl⟩] at this
    cases this

/-- C19: the body that `includeIndexTemplate` returns holds no `{username}` and
no `{balance}` anywhere, whatever the file system and so whatever the template:
it is never `pre`, a placeholder, `post`.  The same goes for the two
`bytes.ReplaceAll` passes on any template `t`. -/
theorem index_body_has_no_placeholder (w : World) (t pre post : Bytes) :
    ((includeIndexTemplate w).2.1 ≠ pre ++ bytes "\x7busername\x7d" ++ post ∧
        (includeIndexTemplate w).2.1 ≠ pre ++ bytes "\x7bbalance\x7d" ++ post) ∧
      (bytes_ReplaceAll (bytes_ReplaceAll t (bytes "\x7busername\x7d") (bytes "Michael"))
            (bytes "\x7bbalance\x7d") (bytes "1 000.50")
          ≠ pre ++ bytes "\x7busername\x7d" ++ post ∧
        bytes_ReplaceAll (bytes_ReplaceAll t (bytes "\x7busername\x7d") (bytes "Michael"))
            (bytes "\x7bbalance\x7d") (bytes "1 000.50")
          ≠ pre ++ bytes "\x7bbalance\x7d" ++ post) := by
  have hU : bytes "\x7busername\x7d" = 123 :: bytes "username\x7d" := by decide
  have hB : bytes "\x7bbalance\x7d" = 123 :: bytes "balance\x7d" := by decide
  constructor
  · cases hf : w.files (bytes "web/template/index.html") with
    | error e =>
      have hb : (includeIndexTemplate w).2.1 = [] := by
        simp [includeIndexTemplate, ioutil_ReadFile, hf]
      rw [hb, hU, hB]
      constructor <;> simp
    | ok c =>
      rw [includeIndexTemplate_ok w c hf]
      exact substitute_no_placeholder c pre post
  · rw [ReplaceAll_twice_eq_substitute]
    exact substitute_no_placeholder t pre post

/-! ## When `handle` succeeds -/

theorem responseFor_ne_nil (path c : Bytes) : responseFor path c ≠ [] := by
  have e1 : bytes "HTTP/1.1 200\r\nConnection: close\r\nContent-Length: "
      = 72 :: bytes "TTP/1.1 200\r\nConnection: close\r\nContent-Length: " := by decide
  have e2 : bytes "HTTP/1.1 200\r\nContent-Type: text/csv\r\nContent-Length: "
      = 72 :: bytes "TTP/1.1 200\r\nContent-Type: text/csv\r\nContent-Length: " := by decide
  have e3 : bytes "HTTP/1.1 200\r\napplication/json; charset=utf-8\r\nContent-Length: "
      = 72 :: bytes "TTP/1.1 200\r\napplication/json; charset=utf-8\r\nContent-Length: " := by
    decide
  have e4 : bytes "HTTP/1.1 200\r\napplication/xml\r\nContent-Length: "
      = 72 :: bytes "TTP/1.1 200\r\napplication/xml\r\nContent-Length: " := by decide
  unfold responseFor
  rw [e1, e2, e3, e4]
  split
  · simp
  · split
    · simp
    · split <;> simp

theorem connWrite_ok_grows (w : World) (p : Bytes) (hw : w.writesSucceed) (hp : p ≠ []) :
    (connWrite w p).2 = none ∧ w.written.length < (connWrite w p).1.written.length := by
  rw [connWrite_of_writesSucceed w p hw]
  refine ⟨rfl, ?_⟩
  have : 0 < p.length := List.length_pos.2 hp
  simp only [List.length_append]
  omega

/-- The outcome of answering a path on a connection that takes every write:
no error, and bytes written, exactly when the path is not recognized or its
resource can be read. -/
theorem answer_outcome (path : Bytes) (w : World) (hw : w.writesSucceed) :
    ((answer path w).2 = none ↔
        (resourceFor path = none ∨
          ∃ name c, resourceFor path = some name ∧ w.files name = Except.ok c)) ∧
      (w.written.length < (answer path w).1.written.length ↔ (answer path w).2 = none) := by
  unfold answer
  cases hr : resourceFor path with
  | none =>
    have h := connWrite_ok_grows w notFoundResponse hw (by decide)
    simp [h.1, h.2]
  | some name =>
    simp only
    cases hf : w.files name with
    | error e => simp [hf]
    | ok c =>
      have h := connWrite_ok_grows { w with fsReads := w.fsReads ++ [name] }
        (responseFor path c) hw (responseFor_ne_nil path c)
      simp only [h.1]
      refine ⟨by simp [hf], ?_⟩
      simp only [iff_true]
      exact h.2

/-- C20: on a connection that takes every write, `handle` returns no error
exactly when the input holds a line feed, the line up to it has exactly three
space-separated tokens, and the middle one either is none of the four
recognized paths or is one whose resource file can be read; and `handle` writes
at least one byte exactly when it returns no error. -/
theorem handle_succeeds_iff (w : World) (hw : w.writesSucceed) :
    ((handle w).2 = none ↔
        ∃ l0 rest m p v, delim ∉ l0 ∧ w.input = l0 ++ delim :: rest ∧
          strings_Split (l0 ++ [delim]) SP = [m, p, v] ∧
          (resourceFor p = none ∨
            ∃ name c, resourceFor p = some name ∧ w.files name = Except.ok c)) ∧
      (w.written.length < (handle w).1.written.length ↔ (handle w).2 = none) := by
  unfold handle
  simp only [connClose_written]
  rw [handleBody_eq]
  cases hfl : firstLine delim w.input with
  | none =>
    simp only
    constructor
    · simp only [reduceCtorEq, false_iff]
      rintro ⟨l0, rest, m, p, v, h0, hin, _⟩
      rw [hin, firstLine_append_delim delim l0 rest h0] at hfl
      cases hfl
    · simp only [reduceCtorEq, iff_false]
      split <;> simp [logMsg]
  | some line =>
    obtain ⟨l0, rest, hline, h0, hin⟩ := firstLine_some delim w.input line hfl
    have uniq : ∀ l1 rest1, delim ∉ l1 → w.input = l1 ++ delim :: rest1 →
        l1 ++ [delim] = line := by
      intro l1 rest1 h1 hin1
      have := hfl
      rw [hin1, firstLine_append_delim delim l1 rest1 h1] at this
      exact Option.some.inj this
    simp only
    by_cases hlen : (strings_Split line SP).length ≠ 3
    · rw [if_pos hlen]
      simp only [reduceCtorEq, false_iff, iff_false]
      constructor
      · rintro ⟨l1, rest1, m, p, v, h1, hin1, hs, _⟩
        rw [uniq l1 rest1 h1 hin1] at hs
        rw [hs] at hlen
        exact hlen rfl
      · simp [logMsg]
    · rw [if_neg hlen]
      have h3 : (strings_Split line SP).length = 3 := by
        by_contra hne
        exact hlen hne
      obtain ⟨m, p, v, hs⟩ := length_three _ h3
      have hget : (strings_Split line SP).getD 1 [] = p := by rw [hs]; rfl
      rw [hget]
      have ho := answer_outcome p (logMsg w (bytes "received: " ++ line ++ bytes "\n"))
        (by exact hw)
      refine ⟨?_, ho.2⟩
      rw [ho.1]
      constructor
      · intro hres
        exact ⟨l0, rest, m, p, v, h0, hin, by rw [← hline]; exact hs, hres⟩
      · rintro ⟨l1, rest1, m1, p1, v1, h1, hin1, hs1, hres⟩
        rw [uniq l1 rest1 h1 hin1, hs] at hs1
        simp only [List.cons.injEq, and_true] at hs1
        rw [hs1.2.1]
        exact hres

theorem handle_succeeds_iff_witness :
    (freshWorld (bytes "GET /transactions.csv HTTP/1.1\n") sampleFiles).writesSucceed ∧
      (handle (freshWorld (bytes "GET /transactions.csv HTTP/1.1\n") sampleFiles)).2 = none ∧
      (freshWorld (bytes "GET /transactions.csv HTTP/1.1\n") sampleFiles).written.length
        < (handle (freshWorld (bytes "GET /transactions.csv HTTP/1.1\n")
            sampleFiles)).1.written.length :=
  ⟨rfl,
    ((handle_succeeds_iff (freshWorld (bytes "GET /transactions.csv HTTP/1.1\n") sampleFiles)
      rfl).1).2
      ⟨bytes "GET /transactions.csv HTTP/1.1", [], bytes "GET", bytes "/transactions.csv",
        bytes "HTTP/1.1\n", by decide, by decide, by decide,
        Or.inr ⟨bytes "web/shared/transactions.csv", bytes "a,b\n1,2\n", by decide, rfl⟩⟩,
    ((handle_succeeds_iff (freshWorld (bytes "GET /transactions.csv HTTP/1.1\n") sampleFiles)
      rfl).2).2 (by decide)⟩

end BgoHttp
